import Mathlib

/-!
Voxel grid and point-set algebra of the culling package.

A shallow embedding of `include/culling/voxel_grid.h` (class `pcl::VoxelGridT`)
and of the set operations declared in `include/culling/occlusion_culling_gpu.h`.

Conventions of the embedding:

* a C++ `int` is an `Int`; every `int` operation of the source is followed by
  `wrapInt32`, the two's-complement representative of the exact result;
* a `float`/`double` is a `Rat` (exact arithmetic); `floor` followed by
  `static_cast<int>` is `Int.floor`; the leaf members are also given over an abstract
  `float` arithmetic (`ScalarOps`), of which the rational one is an instance;
* `std::vector<int>` is `List Int`; `.at()` yields an `Except`, an unchecked
  `operator[]` that may leave the vector yields an `Option`.
-/

namespace pcl

/-! ## Machine integers -/

/-- The value a 32-bit two's-complement `int` holds for the exact result `x`. -/
def wrapInt32 (x : Int) : Int :=
  (x + 2147483648) % 4294967296 - 2147483648

/-- The exact integer `x` is representable as a C++ `int`. -/
def fitsInt32 (x : Int) : Prop :=
  -2147483648 ≤ x ∧ x < 2147483648

instance (x : Int) : Decidable (fitsInt32 x) := by
  unfold fitsInt32; infer_instance

/-- The `std::size_t` (64 bit) an `int` converts to when it is used as a vector index. -/
def toSizeT (i : Int) : Nat :=
  (i % 18446744073709551616).toNat

/-! ## Eigen vectors -/

/-- An `Eigen::Vector3i`. -/
structure Vector3i where
  x : Int
  y : Int
  z : Int
deriving DecidableEq, Repr

/-- An `Eigen::Vector4i` (also `Eigen::Array4i`). -/
structure Vector4i where
  x : Int
  y : Int
  z : Int
  w : Int
deriving DecidableEq, Repr

/-- An `Eigen::Vector3f`. -/
structure Vector3f where
  x : Rat
  y : Rat
  z : Rat
deriving DecidableEq, Repr

/-- An `Eigen::Vector4f` (also `Eigen::Array4f`). -/
structure Vector4f where
  x : Rat
  y : Rat
  z : Rat
  w : Rat
deriving DecidableEq, Repr

/-- The point type `PointInT`: the fields `x`, `y`, `z` the grid reads. -/
structure PointXYZ where
  x : Rat
  y : Rat
  z : Rat
deriving DecidableEq, Repr

/-- The constant `Eigen::Vector4i::Zero()`. -/
def Vector4i.Zero : Vector4i := ⟨0, 0, 0, 0⟩

/-- The constant `Eigen::Vector4f::Zero()`. -/
def Vector4f.Zero : Vector4f := ⟨0, 0, 0, 0⟩

/-- The constant `Eigen::Array4f::Ones()`. -/
def Vector4f.Ones : Vector4f := ⟨1, 1, 1, 1⟩

/-- Coefficient-wise `a - b` on `int` vectors. -/
def Vector4i.sub (a b : Vector4i) : Vector4i :=
  ⟨wrapInt32 (a.x - b.x), wrapInt32 (a.y - b.y), wrapInt32 (a.z - b.z), wrapInt32 (a.w - b.w)⟩

/-- Coefficient-wise `a + b` on `int` vectors. -/
def Vector4i.add (a b : Vector4i) : Vector4i :=
  ⟨wrapInt32 (a.x + b.x), wrapInt32 (a.y + b.y), wrapInt32 (a.z + b.z), wrapInt32 (a.w + b.w)⟩

/-- The `int` dot product `a.dot(b)`. -/
def Vector4i.dot (a b : Vector4i) : Int :=
  wrapInt32 (wrapInt32 (wrapInt32 (wrapInt32 (a.x * b.x) + wrapInt32 (a.y * b.y))
    + wrapInt32 (a.z * b.z)) + wrapInt32 (a.w * b.w))

/-- The test `(a <= b).all()` on arrays. -/
def Vector4i.allLE (a b : Vector4i) : Prop :=
  a.x ≤ b.x ∧ a.y ≤ b.y ∧ a.z ≤ b.z ∧ a.w ≤ b.w

instance (a b : Vector4i) : Decidable (a.allLE b) := by
  unfold Vector4i.allLE; infer_instance

/-- The test `(a >= b).all()` on arrays. -/
def Vector4i.allGE (a b : Vector4i) : Prop :=
  b.x ≤ a.x ∧ b.y ≤ a.y ∧ b.z ≤ a.z ∧ b.w ≤ a.w

instance (a b : Vector4i) : Decidable (a.allGE b) := by
  unfold Vector4i.allGE; infer_instance

/-- Coefficient-wise quotient `a / b` of float arrays. -/
def Vector4f.div (a b : Vector4f) : Vector4f :=
  ⟨a.x / b.x, a.y / b.y, a.z / b.z, a.w / b.w⟩

/-- The block `v.head<3>()`. -/
def Vector4f.head3 (v : Vector4f) : Vector3f := ⟨v.x, v.y, v.z⟩

/-- The expression `(Eigen::Vector4i() << ijk, 0).finished()`. -/
def Vector3i.append0 (v : Vector3i) : Vector4i := ⟨v.x, v.y, v.z, 0⟩

/-! ## The grid -/

/-- The constant `FLT_MAX` of `<cfloat>`. -/
def FLT_MAX : Rat := 340282346638528859811704183484516925440

/-- The data members of `VoxelGridT` that its inline members read or write. -/
structure VoxelGridT where
  leaf_size_ : Vector4f
  inverse_leaf_size_ : Vector4f
  downsample_all_data_ : Bool
  save_leaf_layout_ : Bool
  leaf_layout_ : List Int
  min_b_ : Vector4i
  max_b_ : Vector4i
  div_b_ : Vector4i
  divb_mul_ : Vector4i
  filter_field_name_ : String
  filter_limit_min_ : Rat
  filter_limit_max_ : Rat
  filter_limit_negative_ : Bool
deriving DecidableEq, Repr

/-- The empty constructor `VoxelGridT()`. -/
def VoxelGridT.ctor : VoxelGridT where
  leaf_size_ := Vector4f.Zero
  inverse_leaf_size_ := Vector4f.Zero
  downsample_all_data_ := true
  save_leaf_layout_ := false
  leaf_layout_ := []
  min_b_ := Vector4i.Zero
  max_b_ := Vector4i.Zero
  div_b_ := Vector4i.Zero
  divb_mul_ := Vector4i.Zero
  filter_field_name_ := ""
  filter_limit_min_ := -FLT_MAX
  filter_limit_max_ := FLT_MAX
  filter_limit_negative_ := false

namespace VoxelGridT

/-- The member `setLeafSize(const Eigen::Vector4f&)`. -/
def setLeafSize (g : VoxelGridT) (leaf_size : Vector4f) : VoxelGridT :=
  let l : Vector4f := if leaf_size.w = 0 then { leaf_size with w := 1 } else leaf_size
  { g with leaf_size_ := l, inverse_leaf_size_ := Vector4f.Ones.div l }

/-- The member `setLeafSize(float lx, float ly, float lz)`. -/
def setLeafSize3 (g : VoxelGridT) (lx ly lz : Rat) : VoxelGridT :=
  let l0 : Vector4f := { g.leaf_size_ with x := lx, y := ly, z := lz }
  let l : Vector4f := if l0.w = 0 then { l0 with w := 1 } else l0
  { g with leaf_size_ := l, inverse_leaf_size_ := Vector4f.Ones.div l }

/-- The member `getLeafSize()`. -/
def getLeafSize (g : VoxelGridT) : Vector3f :=
  g.leaf_size_.head3

/-- The member `setSaveLeafLayout(bool)`. -/
def setSaveLeafLayout (g : VoxelGridT) (save_leaf_layout : Bool) : VoxelGridT :=
  { g with save_leaf_layout_ := save_leaf_layout }

/-- The member `getLeafLayout()`. -/
def getLeafLayout (g : VoxelGridT) : List Int :=
  g.leaf_layout_

/-- The member `getGridCoordinates(float x, float y, float z)`. -/
def getGridCoordinates (g : VoxelGridT) (x y z : Rat) : Vector3i :=
  ⟨Int.floor (x * g.inverse_leaf_size_.x),
   Int.floor (y * g.inverse_leaf_size_.y),
   Int.floor (z * g.inverse_leaf_size_.z)⟩

/-- The linear index `((ijk, 0) - min_b_).dot(divb_mul_)` computed in `int`. -/
def linearIndex (g : VoxelGridT) (ijk : Vector3i) : Int :=
  (ijk.append0.sub g.min_b_).dot g.divb_mul_

/-- The guard of `getCentroidIndexAt`:
`idx < 0 || idx >= static_cast<int>(leaf_layout_.size())`. -/
def outsideLayout (g : VoxelGridT) (idx : Int) : Prop :=
  idx < 0 ∨ idx ≥ wrapInt32 g.leaf_layout_.length

instance (g : VoxelGridT) (idx : Int) : Decidable (g.outsideLayout idx) := by
  unfold outsideLayout; infer_instance

/-- The member `getCentroidIndexAt(const Eigen::Vector3i&)`. Past the guard the
index lies inside the vector, so the unchecked read is a plain `get`. -/
def getCentroidIndexAt (g : VoxelGridT) (ijk : Vector3i) : Int :=
  let idx := g.linearIndex ijk
  if h : g.outsideLayout idx then -1
  else g.leaf_layout_.get ⟨idx.toNat, by
    unfold outsideLayout wrapInt32 at h
    omega⟩

end VoxelGridT

/-- The exceptions the members can raise: `std::out_of_range` from `vector::at`. -/
inductive Exception where
  | out_of_range
deriving DecidableEq, Repr

namespace VoxelGridT

/-- The cell `(floor(p.x * inv[0]), floor(p.y * inv[1]), floor(p.z * inv[2]), 0)`
that `getCentroidIndex` and `getNeighborCentroidIndices` build from a point. -/
def pointCell (g : VoxelGridT) (p : PointXYZ) : Vector4i :=
  ⟨Int.floor (p.x * g.inverse_leaf_size_.x),
   Int.floor (p.y * g.inverse_leaf_size_.y),
   Int.floor (p.z * g.inverse_leaf_size_.z), 0⟩

/-- The member `getCentroidIndex(const PointInT&)`: `leaf_layout_.at(...)` of the
linear index converted to `std::size_t`. -/
def getCentroidIndex (g : VoxelGridT) (p : PointXYZ) : Except Exception Int :=
  match g.leaf_layout_[toSizeT (((g.pointCell p).sub g.min_b_).dot g.divb_mul_)]? with
  | some v => Except.ok v
  | none => Except.error Exception.out_of_range

/-- One iteration of the loop of `getNeighborCentroidIndices`: the value stored in
`neighbors[ni]` for the column `col`, `none` when the unchecked read leaves the vector. -/
def neighborEntry (g : VoxelGridT) (ijk diff2min diff2max : Vector4i) (col : Vector3i) :
    Option Int :=
  let displacement := col.append0
  if diff2min.allLE displacement ∧ diff2max.allGE displacement then
    g.leaf_layout_[toSizeT (((ijk.add displacement).sub g.min_b_).dot g.divb_mul_)]?
  else
    some (-1)

/-- The loop of `getNeighborCentroidIndices` over the columns of the matrix. -/
def neighborLoop (g : VoxelGridT) (ijk diff2min diff2max : Vector4i) :
    List Vector3i → Option (List Int)
  | [] => some []
  | col :: rest =>
    match g.neighborEntry ijk diff2min diff2max col with
    | none => none
    | some v =>
      match neighborLoop g ijk diff2min diff2max rest with
      | none => none
      | some vs => some (v :: vs)

/-- The member `getNeighborCentroidIndices(reference_point, relative_coordinates)`;
the matrix is the list of its columns. -/
def getNeighborCentroidIndices (g : VoxelGridT) (reference_point : PointXYZ)
    (relative_coordinates : List Vector3i) : Option (List Int) :=
  let ijk := g.pointCell reference_point
  let diff2min := g.min_b_.sub ijk
  let diff2max := g.max_b_.sub ijk
  g.neighborLoop ijk diff2min diff2max relative_coordinates

/-- The member `setFilterLimits(limit_min, limit_max)`. -/
def setFilterLimits (g : VoxelGridT) (limit_min limit_max : Rat) : VoxelGridT :=
  { g with filter_limit_min_ := limit_min, filter_limit_max_ := limit_max }

/-- The member `getFilterLimits(limit_min, limit_max)`: the two output arguments. -/
def getFilterLimits (g : VoxelGridT) : Rat × Rat :=
  (g.filter_limit_min_, g.filter_limit_max_)

/-- The member `setFilterLimitsNegative(limit_negative)`. -/
def setFilterLimitsNegative (g : VoxelGridT) (limit_negative : Bool) : VoxelGridT :=
  { g with filter_limit_negative_ := limit_negative }

/-- The member `getFilterLimitsNegative(bool&)`: the output argument. -/
def getFilterLimitsNegativeOut (g : VoxelGridT) : Bool :=
  g.filter_limit_negative_

/-- The member `getFilterLimitsNegative()`. -/
def getFilterLimitsNegative (g : VoxelGridT) : Bool :=
  g.filter_limit_negative_

/-- Modelled from the spec: the minimum bin `min_b = floor(min * inverse_leaf_size)`
that `applyFilter` (declared in the header, defined outside the sources) derives
from the bounding-box minimum. -/
def minBin (g : VoxelGridT) (min_p : Vector3f) : Vector3i :=
  ⟨Int.floor (min_p.x * g.inverse_leaf_size_.x),
   Int.floor (min_p.y * g.inverse_leaf_size_.y),
   Int.floor (min_p.z * g.inverse_leaf_size_.z)⟩

/-! ## Predicates on grid states -/

/-- The cell `c` lies inside the grid bounds `[min_b, max_b]` on all three axes. -/
def inBounds (g : VoxelGridT) (c : Vector3i) : Prop :=
  (g.min_b_.x ≤ c.x ∧ c.x ≤ g.max_b_.x) ∧ (g.min_b_.y ≤ c.y ∧ c.y ≤ g.max_b_.y) ∧
    (g.min_b_.z ≤ c.z ∧ c.z ≤ g.max_b_.z)

instance (g : VoxelGridT) (c : Vector3i) : Decidable (g.inBounds c) := by
  unfold inBounds; infer_instance

/-- The position documented at `getLeafLayout`:
`(i-min_x) + (j-min_y)*div_x + (k-min_z)*div_x*div_y`, in exact arithmetic. -/
def layoutPosition (g : VoxelGridT) (c : Vector3i) : Int :=
  (c.x - g.min_b_.x) + (c.y - g.min_b_.y) * g.div_b_.x +
    (c.z - g.min_b_.z) * g.div_b_.x * g.div_b_.y

/-- The cell `getGridCoordinates(reference_point) + col`, in exact arithmetic. -/
def neighborCell (g : VoxelGridT) (reference_point : PointXYZ) (col : Vector3i) : Vector3i :=
  ⟨(g.getGridCoordinates reference_point.x reference_point.y reference_point.z).x + col.x,
   (g.getGridCoordinates reference_point.x reference_point.y reference_point.z).y + col.y,
   (g.getGridCoordinates reference_point.x reference_point.y reference_point.z).z + col.z⟩

/-- The position `(cell - min_b) . divb_mul` over the three axes, in exact arithmetic. -/
def dotPosition (g : VoxelGridT) (c : Vector3i) : Int :=
  (c.x - g.min_b_.x) * g.divb_mul_.x + (c.y - g.min_b_.y) * g.divb_mul_.y +
    (c.z - g.min_b_.z) * g.divb_mul_.z

/-- The grid state in which the leaf layout is saved: `div_b = max_b - min_b + 1`
per axis, `divb_mul = (1, div_x, div_x*div_y)`, a layout of `div_x*div_y*div_z`
entries whose size an `int` holds, and the fourth components of `min_b_` and
`max_b_` still zero as the constructor left them. -/
structure LeafLayoutSaved (g : VoxelGridT) : Prop where
  min_w : g.min_b_.w = 0
  max_w : g.max_b_.w = 0
  div_x : g.div_b_.x = g.max_b_.x - g.min_b_.x + 1
  div_y : g.div_b_.y = g.max_b_.y - g.min_b_.y + 1
  div_z : g.div_b_.z = g.max_b_.z - g.min_b_.z + 1
  mul_x : g.divb_mul_.x = 1
  mul_y : g.divb_mul_.y = g.div_b_.x
  mul_z : g.divb_mul_.z = g.div_b_.x * g.div_b_.y
  size : (g.leaf_layout_.length : Int) = g.div_b_.x * g.div_b_.y * g.div_b_.z
  size_fits : (g.leaf_layout_.length : Int) < 2147483648

/-- The dimensions of a built grid: `div_b = max_b - min_b + 1 >= 1` per axis and
`divb_mul = (1, div_x, div_x*div_y)`. -/
structure GridDims (g : VoxelGridT) : Prop where
  div_x : g.div_b_.x = g.max_b_.x - g.min_b_.x + 1
  div_y : g.div_b_.y = g.max_b_.y - g.min_b_.y + 1
  div_z : g.div_b_.z = g.max_b_.z - g.min_b_.z + 1
  one_le_x : 1 ≤ g.div_b_.x
  one_le_y : 1 ≤ g.div_b_.y
  one_le_z : 1 ≤ g.div_b_.z
  mul_x : g.divb_mul_.x = 1
  mul_y : g.divb_mul_.y = g.div_b_.x
  mul_z : g.divb_mul_.z = g.div_b_.x * g.div_b_.y

/-- The leaf size is strictly positive on the x, y and z axes. -/
def leafSizePositive (g : VoxelGridT) : Prop :=
  0 < g.leaf_size_.x ∧ 0 < g.leaf_size_.y ∧ 0 < g.leaf_size_.z

instance (g : VoxelGridT) : Decidable g.leafSizePositive := by
  unfold leafSizePositive; infer_instance

/-- The subtractions `min_b_ - ijk` and `max_b_ - ijk` of `getNeighborCentroidIndices`
do not overflow `int` for the reference cell `ijk`. -/
def diffsFit (g : VoxelGridT) (ijk : Vector4i) : Prop :=
  (fitsInt32 (g.min_b_.x - ijk.x) ∧ fitsInt32 (g.min_b_.y - ijk.y) ∧
    fitsInt32 (g.min_b_.z - ijk.z)) ∧
  (fitsInt32 (g.max_b_.x - ijk.x) ∧ fitsInt32 (g.max_b_.y - ijk.y) ∧
    fitsInt32 (g.max_b_.z - ijk.z))

instance (g : VoxelGridT) (ijk : Vector4i) : Decidable (g.diffsFit ijk) := by
  unfold diffsFit; infer_instance

end VoxelGridT

/-! ## The leaf members over an abstract `float` -/

/-- The `float` operations that `setLeafSize` uses, kept abstract so that they can be
read as those of binary32: the constant `1`, the comparison `x == 0` and the
quotient `a / b`. -/
structure ScalarOps (F : Type) where
  one : F
  isZero : F → Bool
  div : F → F → F

/-- An `Eigen::Vector4f` (also `Eigen::Array4f`) over the scalar type `F`. -/
structure Array4 (F : Type) where
  x : F
  y : F
  z : F
  w : F

/-- An `Eigen::Vector3f` over the scalar type `F`. -/
structure Array3 (F : Type) where
  x : F
  y : F
  z : F

/-- The members `leaf_size_` and `inverse_leaf_size_` of `VoxelGridT` over the scalar
type `F`. -/
structure LeafMembers (F : Type) where
  leaf_size_ : Array4 F
  inverse_leaf_size_ : Array4 F

/-- The expression `Eigen::Array4f::Ones() / v.array()` over the scalar type `F`. -/
def Array4.onesDiv {F : Type} (ops : ScalarOps F) (v : Array4 F) : Array4 F :=
  ⟨ops.div ops.one v.x, ops.div ops.one v.y, ops.div ops.one v.z, ops.div ops.one v.w⟩

/-- The member `setLeafSize(const Eigen::Vector4f&)` over the scalar type `F`; `s` is the
prior state of the two members. -/
def LeafMembers.setLeafSize {F : Type} (ops : ScalarOps F) (_s : LeafMembers F)
    (leaf_size : Array4 F) : LeafMembers F :=
  let l : Array4 F := if ops.isZero leaf_size.w then { leaf_size with w := ops.one } else leaf_size
  { leaf_size_ := l, inverse_leaf_size_ := Array4.onesDiv ops l }

/-- The member `setLeafSize(float lx, float ly, float lz)` over the scalar type `F`. -/
def LeafMembers.setLeafSize3 {F : Type} (ops : ScalarOps F) (s : LeafMembers F)
    (lx ly lz : F) : LeafMembers F :=
  let l0 : Array4 F := { s.leaf_size_ with x := lx, y := ly, z := lz }
  let l : Array4 F := if ops.isZero l0.w then { l0 with w := ops.one } else l0
  { leaf_size_ := l, inverse_leaf_size_ := Array4.onesDiv ops l }

/-- The member `getLeafSize()` over the scalar type `F`. -/
def LeafMembers.getLeafSize {F : Type} (s : LeafMembers F) : Array3 F :=
  ⟨s.leaf_size_.x, s.leaf_size_.y, s.leaf_size_.z⟩

/-- The exact operations on rationals, the scalar type of `VoxelGridT` in this file. -/
def ratOps : ScalarOps Rat :=
  ⟨1, fun x => decide (x = 0), fun a b => a / b⟩

/-- A `Vector4f` of rationals as an `Array4`. -/
def Vector4f.toArray4 (v : Vector4f) : Array4 Rat := ⟨v.x, v.y, v.z, v.w⟩

/-- The leaf members of a grid state. -/
def VoxelGridT.leafMembers (g : VoxelGridT) : LeafMembers Rat :=
  ⟨g.leaf_size_.toArray4, g.inverse_leaf_size_.toArray4⟩

/-- The grid states reached from the constructor by the two `setLeafSize` members. -/
inductive Reachable : VoxelGridT → Prop where
  | ctor : Reachable VoxelGridT.ctor
  | setLeafSize (g : VoxelGridT) (leaf_size : Vector4f) :
      Reachable g → Reachable (g.setLeafSize leaf_size)
  | setLeafSize3 (g : VoxelGridT) (lx ly lz : Rat) :
      Reachable g → Reachable (g.setLeafSize3 lx ly lz)

/-- A 2 x 2 x 1 grid over the cells (0,0,0)..(1,1,0) with a saved layout:
cells (0,0,0), (1,0,0), (1,1,0) hold the centroids 0, 1, 2 and cell (0,1,0) is empty. -/
def grid221 : VoxelGridT :=
  { (VoxelGridT.ctor.setLeafSize3 1 1 1) with
    save_leaf_layout_ := true
    leaf_layout_ := [0, 1, -1, 2]
    min_b_ := ⟨0, 0, 0, 0⟩
    max_b_ := ⟨1, 1, 0, 0⟩
    div_b_ := ⟨2, 2, 1, 0⟩
    divb_mul_ := ⟨1, 2, 4, 0⟩ }

/-- A 2 x 1 x 1 grid over the cells (-1,0,0)..(0,0,0) with a saved layout and leaf
size 1: the cells hold the centroids 7 and 8. -/
def grid211 : VoxelGridT :=
  { (VoxelGridT.ctor.setLeafSize3 1 1 1) with
    save_leaf_layout_ := true
    leaf_layout_ := [7, 8]
    min_b_ := ⟨-1, 0, 0, 0⟩
    max_b_ := ⟨0, 0, 0, 0⟩
    div_b_ := ⟨2, 1, 1, 0⟩
    divb_mul_ := ⟨1, 2, 2, 0⟩ }

end pcl

/-! ## Set algebra on point clouds -/

namespace OcclusionCullingGPU

open pcl

/-- Modelled from the spec: the square of the Euclidean distance between two points. -/
def distSq (a b : PointXYZ) : Rat :=
  (a.x - b.x) ^ 2 + (a.y - b.y) ^ 2 + (a.z - b.z) ^ 2

/-- Modelled from the spec: `contains(cloud, point)` is true iff some point in `cloud`
is within ε of `point`, Euclidean distance below ε meaning the same point. The body
of `OcclusionCullingGPU::contains` is not among the sources. The distance test is
evaluated on squares, which for `0 < ε` is the test `distance < ε`. -/
def contains (ε : Rat) (c : List PointXYZ) (p : PointXYZ) : Bool :=
  c.any fun q => decide (0 < ε ∧ distSq q p < ε * ε)

/-- Modelled from the spec: `difference(A, B)` is the subset of points in A with no
ε-match in B. The body of `OcclusionCullingGPU::pointsDifference` is not among the
sources. -/
def pointsDifference (ε : Rat) (a b : List PointXYZ) : List PointXYZ :=
  a.filter fun p => !contains ε b p

/-- Modelled from the spec: the states `Empty` and `Accumulating` of the coverage
aggregator. -/
inductive CoveragePhase where
  | Empty
  | Accumulating
deriving DecidableEq, Repr

/-- Modelled from the spec: the campaign-scoped `CoverageState`, the cumulative covered
set with the ratio of covered points to model points. -/
structure CoverageState where
  phase : CoveragePhase
  covered : List PointXYZ
  ratio : Rat
deriving DecidableEq, Repr

/-- Modelled from the spec: `ratio = |covered| / |model|`, and zero points in the model
mean coverage 0. Of `OcclusionCullingGPU::calcCoveragePercent` only the declaration is
among the sources. -/
def coverageRatio (model covered : List PointXYZ) : Rat :=
  if model.length = 0 then 0 else (covered.length : Rat) / (model.length : Rat)

/-- Modelled from the spec: the initial state `Empty`, no poses processed, ratio 0. -/
def CoverageState.initial : CoverageState :=
  ⟨CoveragePhase.Empty, [], 0⟩

/-- Modelled from the spec: `foldCoverage(state, subset)` merges the visible subset of a
pose into the cumulative covered set via `difference` and union, moves to
`Accumulating` and recomputes the ratio. -/
def foldCoverage (ε : Rat) (model : List PointXYZ) (s : CoverageState)
    (subset : List PointXYZ) : CoverageState :=
  ⟨CoveragePhase.Accumulating, s.covered ++ pointsDifference ε subset s.covered,
    coverageRatio model (s.covered ++ pointsDifference ε subset s.covered)⟩

/-- Modelled from the spec: the coverage state after a sequence of visible subsets is
folded in, starting from `Empty`. -/
def foldAll (ε : Rat) (model : List PointXYZ) (subsets : List (List PointXYZ)) :
    CoverageState :=
  subsets.foldl (foldCoverage ε model) CoverageState.initial

end OcclusionCullingGPU

/-! ## Machine arithmetic lemmas -/

namespace pcl

theorem wrapInt32_modEq (x : Int) : wrapInt32 x ≡ x [ZMOD 4294967296] := by
  unfold wrapInt32 Int.ModEq
  omega

theorem wrapInt32_of_fits {x : Int} (h : fitsInt32 x) : wrapInt32 x = x := by
  unfold fitsInt32 at h
  unfold wrapInt32
  omega

theorem wrapInt32_eq_of_modEq {x y : Int} (h : x ≡ y [ZMOD 4294967296])
    (hy : fitsInt32 y) : wrapInt32 x = y := by
  unfold fitsInt32 at hy
  unfold Int.ModEq at h
  unfold wrapInt32
  omega

theorem fitsInt32_wrapInt32 (x : Int) : fitsInt32 (wrapInt32 x) := by
  unfold fitsInt32 wrapInt32
  omega

/-- The `int` dot product of a difference agrees with the exact sum of products
modulo `2^32`. -/
theorem dot_sub_modEq (a b m : Vector4i) :
    (a.sub b).dot m ≡
      (a.x - b.x) * m.x + (a.y - b.y) * m.y + (a.z - b.z) * m.z + (a.w - b.w) * m.w
      [ZMOD 4294967296] := by
  unfold Vector4i.dot Vector4i.sub
  simp only
  refine (wrapInt32_modEq _).trans ?_
  refine Int.ModEq.add ?_ ((wrapInt32_modEq _).trans ((wrapInt32_modEq _).mul_right _))
  refine (wrapInt32_modEq _).trans ?_
  refine Int.ModEq.add ?_ ((wrapInt32_modEq _).trans ((wrapInt32_modEq _).mul_right _))
  refine (wrapInt32_modEq _).trans ?_
  exact Int.ModEq.add ((wrapInt32_modEq _).trans ((wrapInt32_modEq _).mul_right _))
    ((wrapInt32_modEq _).trans ((wrapInt32_modEq _).mul_right _))

/-- Inside the bounds of a saved layout the documented position is a valid index. -/
theorem layoutPosition_range (g : VoxelGridT) (hg : g.LeafLayoutSaved) (c : Vector3i)
    (hc : g.inBounds c) :
    0 ≤ g.layoutPosition c ∧ g.layoutPosition c < g.leaf_layout_.length := by
  obtain ⟨⟨hx0, hx1⟩, ⟨hy0, hy1⟩, ⟨hz0, hz1⟩⟩ := hc
  have hdx := hg.div_x
  have hdy := hg.div_y
  have hdz := hg.div_z
  rw [hg.size]
  unfold VoxelGridT.layoutPosition
  have ha0 : 0 ≤ c.x - g.min_b_.x := by omega
  have hb0 : 0 ≤ c.y - g.min_b_.y := by omega
  have hc0 : 0 ≤ c.z - g.min_b_.z := by omega
  have ha1 : c.x - g.min_b_.x + 1 ≤ g.div_b_.x := by omega
  have hb1 : c.y - g.min_b_.y + 1 ≤ g.div_b_.y := by omega
  have hc1 : c.z - g.min_b_.z + 1 ≤ g.div_b_.z := by omega
  have hX : 0 ≤ g.div_b_.x := by omega
  have hY : 0 ≤ g.div_b_.y := by omega
  have hXY : 0 ≤ g.div_b_.x * g.div_b_.y := mul_nonneg hX hY
  have h1 : 0 ≤ (c.y - g.min_b_.y) * g.div_b_.x := mul_nonneg hb0 hX
  have h2 : 0 ≤ (c.z - g.min_b_.z) * g.div_b_.x * g.div_b_.y := by
    rw [mul_assoc]; exact mul_nonneg hc0 hXY
  have h3 : (c.y - g.min_b_.y + 1) * g.div_b_.x ≤ g.div_b_.y * g.div_b_.x :=
    mul_le_mul_of_nonneg_right hb1 hX
  have h4 : (c.z - g.min_b_.z + 1) * (g.div_b_.x * g.div_b_.y) ≤
      g.div_b_.z * (g.div_b_.x * g.div_b_.y) :=
    mul_le_mul_of_nonneg_right hc1 hXY
  constructor
  · linarith
  · nlinarith

/-- Inside the bounds of a saved layout the `int` linear index is the documented
position: no intermediate wrap-around changes the result. -/
theorem linearIndex_eq_layoutPosition (g : VoxelGridT) (hg : g.LeafLayoutSaved)
    (c : Vector3i) (hc : g.inBounds c) : g.linearIndex c = g.layoutPosition c := by
  have hr := layoutPosition_range g hg c hc
  have hm := dot_sub_modEq c.append0 g.min_b_ g.divb_mul_
  have hs := hg.size_fits
  unfold VoxelGridT.linearIndex
  have hfit : fitsInt32 (g.layoutPosition c) := by
    unfold fitsInt32; omega
  have hdot : fitsInt32 ((c.append0.sub g.min_b_).dot g.divb_mul_) := by
    unfold Vector4i.dot
    exact fitsInt32_wrapInt32 _
  have hexact : (c.append0.x - g.min_b_.x) * g.divb_mul_.x +
      (c.append0.y - g.min_b_.y) * g.divb_mul_.y +
      (c.append0.z - g.min_b_.z) * g.divb_mul_.z +
      (c.append0.w - g.min_b_.w) * g.divb_mul_.w = g.layoutPosition c := by
    unfold VoxelGridT.layoutPosition Vector3i.append0
    simp only [hg.mul_x, hg.mul_y, hg.mul_z, hg.min_w]
    ring
  rw [hexact] at hm
  rw [← wrapInt32_of_fits hdot]
  exact wrapInt32_eq_of_modEq hm hfit

/-- The sample grid `grid221` is a grid with a saved leaf layout. -/
theorem grid221_saved : grid221.LeafLayoutSaved := by
  constructor <;> decide

/-- The guard of `getCentroidIndexAt` on a layout whose size an `int` holds. -/
theorem outsideLayout_iff (g : VoxelGridT) (hs : (g.leaf_layout_.length : Int) < 2147483648)
    (idx : Int) : g.outsideLayout idx ↔ idx < 0 ∨ (g.leaf_layout_.length : Int) ≤ idx := by
  have hw : wrapInt32 g.leaf_layout_.length = g.leaf_layout_.length :=
    wrapInt32_of_fits ⟨by omega, hs⟩
  unfold VoxelGridT.outsideLayout
  rw [hw]

/-- Past its guard `getCentroidIndexAt` returns the layout entry at the linear index. -/
theorem getCentroidIndexAt_of_not_outside (g : VoxelGridT) (c : Vector3i)
    (h : ¬ g.outsideLayout (g.linearIndex c)) :
    g.leaf_layout_[(g.linearIndex c).toNat]? = some (g.getCentroidIndexAt c) := by
  unfold VoxelGridT.getCentroidIndexAt
  simp only [dif_neg h, List.get_eq_getElem]
  exact List.getElem?_eq_getElem _

/-- When its guard fires `getCentroidIndexAt` returns the sentinel. -/
theorem getCentroidIndexAt_of_outside (g : VoxelGridT) (c : Vector3i)
    (h : g.outsideLayout (g.linearIndex c)) : g.getCentroidIndexAt c = -1 := by
  unfold VoxelGridT.getCentroidIndexAt
  simp only [dif_pos h]

/-! ## Lookup by cell coordinate -/

/-- C1, evaluated on the code: in the 2 x 2 x 1 grid `grid221` with a saved layout the
cell (-1,1,0) lies outside the bounds on the x axis, yet `getCentroidIndexAt` does
not return the sentinel -1: its linear index 1 passes the guard and the centroid 1
of the in-bounds cell (1,0,0) is returned. -/
theorem getCentroidIndexAt_outside_bounds_not_sentinel :
    grid221.LeafLayoutSaved ∧ ¬ grid221.inBounds ⟨-1, 1, 0⟩ ∧
      grid221.getCentroidIndexAt ⟨-1, 1, 0⟩ = 1 ∧
      grid221.getCentroidIndexAt ⟨1, 0, 0⟩ = 1 :=
  ⟨grid221_saved, by decide, by decide, by decide⟩

/-- C2: for a grid with a saved leaf layout and a cell inside `[min_b, max_b]` on all
three axes, the position `(i-min_x) + (j-min_y)*div_x + (k-min_z)*div_x*div_y` is a
valid index of the layout returned by `getLeafLayout` and `getCentroidIndexAt`
returns the entry stored there; hence the result is -1 exactly when that entry is
-1, the mark of an empty cell. -/
theorem getCentroidIndexAt_inBounds (g : VoxelGridT) (hg : g.LeafLayoutSaved)
    (c : Vector3i) (hc : g.inBounds c) :
    (0 ≤ g.layoutPosition c ∧ g.layoutPosition c < g.getLeafLayout.length) ∧
      g.getLeafLayout[(g.layoutPosition c).toNat]? = some (g.getCentroidIndexAt c) ∧
      (g.getCentroidIndexAt c = -1 ↔
        g.getLeafLayout[(g.layoutPosition c).toNat]? = some (-1)) := by
  have hr := layoutPosition_range g hg c hc
  have hl := linearIndex_eq_layoutPosition g hg c hc
  have hno : ¬ g.outsideLayout (g.linearIndex c) := by
    rw [outsideLayout_iff g hg.size_fits, hl]
    omega
  have hget := getCentroidIndexAt_of_not_outside g c hno
  rw [hl] at hget
  unfold VoxelGridT.getLeafLayout
  refine ⟨hr, hget, ?_⟩
  rw [hget]
  constructor
  · intro h; rw [h]
  · intro h; exact Option.some.inj h

/-- Witness for C2: the in-bounds cell (1,1,0) of `grid221`. -/
theorem getCentroidIndexAt_inBounds_witness :
    (0 ≤ grid221.layoutPosition ⟨1, 1, 0⟩ ∧
        grid221.layoutPosition ⟨1, 1, 0⟩ < grid221.getLeafLayout.length) ∧
      grid221.getLeafLayout[(grid221.layoutPosition ⟨1, 1, 0⟩).toNat]? =
        some (grid221.getCentroidIndexAt ⟨1, 1, 0⟩) ∧
      (grid221.getCentroidIndexAt ⟨1, 1, 0⟩ = -1 ↔
        grid221.getLeafLayout[(grid221.layoutPosition ⟨1, 1, 0⟩).toNat]? = some (-1)) :=
  getCentroidIndexAt_inBounds grid221 grid221_saved ⟨1, 1, 0⟩ (by decide)

/-- C7: the default-constructed grid, and every grid whose leaf layout is empty,
answers -1 for every integer cell coordinate, so no cell is reported occupied. -/
theorem getCentroidIndexAt_empty_layout :
    (∀ ijk : Vector3i, VoxelGridT.ctor.getCentroidIndexAt ijk = -1) ∧
      (∀ g : VoxelGridT, g.leaf_layout_ = [] →
        ∀ ijk : Vector3i, g.getCentroidIndexAt ijk = -1) := by
  have key : ∀ g : VoxelGridT, g.leaf_layout_ = [] →
      ∀ ijk : Vector3i, g.getCentroidIndexAt ijk = -1 := by
    intro g hg ijk
    apply getCentroidIndexAt_of_outside
    unfold VoxelGridT.outsideLayout
    rw [hg]
    have : wrapInt32 (([] : List Int).length : Int) = 0 := by decide
    rw [this]
    omega
  exact ⟨fun ijk => key VoxelGridT.ctor rfl ijk, key⟩

/-! ## Cell assignment -/

/-- The difference of two floors is the floor of the difference, or one more. -/
theorem floor_sub_floor_bounds (a b : ℚ) :
    ⌊a - b⌋ ≤ ⌊a⌋ - ⌊b⌋ ∧ ⌊a⌋ - ⌊b⌋ ≤ ⌊a - b⌋ + 1 := by
  have h1 := Int.floor_le a
  have h2 := Int.lt_floor_add_one a
  have h3 := Int.floor_le b
  have h4 := Int.lt_floor_add_one b
  have h5 := Int.floor_le (a - b)
  have h6 := Int.lt_floor_add_one (a - b)
  constructor
  · have : ((⌊a - b⌋ : Int) : ℚ) < ((⌊a⌋ - ⌊b⌋ + 1 : Int) : ℚ) := by
      push_cast; linarith
    have := Int.cast_lt.mp this
    omega
  · have : ((⌊a⌋ - ⌊b⌋ : Int) : ℚ) < ((⌊a - b⌋ + 2 : Int) : ℚ) := by
      push_cast; linarith
    have := Int.cast_lt.mp this
    omega

/-- One axis of the cell assignment: with the inverse leaf size `1 / l`, the cell of
`x` relative to the bin of `m`. -/
theorem axis_relative_cell (l x m : ℚ) (hl : 0 < l) :
    ⌊x * (1 / l)⌋ - ⌊m * (1 / l)⌋ = ⌊x / l⌋ - ⌊m / l⌋ ∧
      ⌊(x - m) / l⌋ ≤ ⌊x * (1 / l)⌋ - ⌊m * (1 / l)⌋ ∧
      ⌊x * (1 / l)⌋ - ⌊m * (1 / l)⌋ ≤ ⌊(x - m) / l⌋ + 1 ∧
      ((∃ k : Int, m = k * l) → ⌊x * (1 / l)⌋ - ⌊m * (1 / l)⌋ = ⌊(x - m) / l⌋) := by
  have hx : x * (1 / l) = x / l := mul_one_div x l
  have hm : m * (1 / l) = m / l := mul_one_div m l
  have hd : (x - m) / l = x / l - m / l := sub_div x m l
  rw [hx, hm, hd]
  refine ⟨rfl, (floor_sub_floor_bounds _ _).1, (floor_sub_floor_bounds _ _).2, ?_⟩
  rintro ⟨k, rfl⟩
  have hk : (k : ℚ) * l / l = k := mul_div_cancel_right₀ _ (ne_of_gt hl)
  rw [hk, Int.floor_intCast, Int.floor_sub_int]

/-- Both `setLeafSize` members leave `inverse_leaf_size_` equal to the coefficient-wise
quotient of ones by the stored `leaf_size_`. -/
theorem setLeafSize_inverse (g : VoxelGridT) (l : Vector4f) (lx ly lz : Rat) :
    (g.setLeafSize l).inverse_leaf_size_ = Vector4f.Ones.div (g.setLeafSize l).leaf_size_ ∧
    (g.setLeafSize3 lx ly lz).inverse_leaf_size_ =
      Vector4f.Ones.div (g.setLeafSize3 lx ly lz).leaf_size_ :=
  ⟨rfl, rfl⟩

/-- The leaf size and its inverse that `setLeafSize3 1 1 1` leaves in a fresh grid. -/
theorem unit_grid_inverse :
    (VoxelGridT.ctor.setLeafSize3 1 1 1).inverse_leaf_size_ =
      Vector4f.Ones.div (VoxelGridT.ctor.setLeafSize3 1 1 1).leaf_size_ ∧
    (VoxelGridT.ctor.setLeafSize3 1 1 1).leafSizePositive := by
  constructor
  · rfl
  · decide

/-- C3 refuted as stated: with leaf size 1, bounding-box minimum 1/2 and coordinate 1
on the x axis, `getGridCoordinates(coord) - min_b` is 1 - 0 = 1 while
`floor((coord - min)/leaf)` is `floor(1/2) = 0`. -/
theorem gridCoordinates_relative_counterexample :
    (VoxelGridT.ctor.setLeafSize3 1 1 1).leafSizePositive ∧
    ((VoxelGridT.ctor.setLeafSize3 1 1 1).getGridCoordinates 1 0 0).x -
        ((VoxelGridT.ctor.setLeafSize3 1 1 1).minBin ⟨1 / 2, 0, 0⟩).x = 1 ∧
      ⌊((1 : ℚ) - 1 / 2) / 1⌋ = 0 ∧
      ((VoxelGridT.ctor.setLeafSize3 1 1 1).getGridCoordinates 1 0 0).x -
        ((VoxelGridT.ctor.setLeafSize3 1 1 1).minBin ⟨1 / 2, 0, 0⟩).x ≠
          ⌊((1 : ℚ) - 1 / 2) / 1⌋ := by
  have h1 : ((VoxelGridT.ctor.setLeafSize3 1 1 1).getGridCoordinates 1 0 0).x = 1 := by
    norm_num [VoxelGridT.getGridCoordinates, VoxelGridT.setLeafSize3, VoxelGridT.ctor,
      Vector4f.Ones, Vector4f.div, Vector4f.Zero]
  have h2 : ((VoxelGridT.ctor.setLeafSize3 1 1 1).minBin ⟨1 / 2, 0, 0⟩).x = 0 := by
    norm_num [VoxelGridT.minBin, VoxelGridT.setLeafSize3, VoxelGridT.ctor,
      Vector4f.Ones, Vector4f.div, Vector4f.Zero]
  have h3 : ⌊((1 : ℚ) - 1 / 2) / 1⌋ = 0 := by norm_num
  rw [h1, h2, h3]
  exact ⟨unit_grid_inverse.2, by decide, rfl, by decide⟩

/-- C3 as amended: for a grid whose inverse leaf size is the reciprocal of a leaf size
positive on every axis, the cell of a point relative to the grid minimum,
`getGridCoordinates(coord) - min_b` with `min_b = floor(min * inverse_leaf_size)`,
equals `floor(coord/leaf) - floor(min/leaf)` per axis; this is
`floor((coord - min)/leaf)` or one more, and it is `floor((coord - min)/leaf)` when
`min` is an integer multiple of the leaf size. -/
theorem gridCoordinates_relative (g : VoxelGridT)
    (hinv : g.inverse_leaf_size_ = Vector4f.Ones.div g.leaf_size_)
    (hpos : g.leafSizePositive) (m : Vector3f) (x y z : Rat) :
    ((g.getGridCoordinates x y z).x - (g.minBin m).x =
        ⌊x / g.leaf_size_.x⌋ - ⌊m.x / g.leaf_size_.x⌋ ∧
      ⌊(x - m.x) / g.leaf_size_.x⌋ ≤ (g.getGridCoordinates x y z).x - (g.minBin m).x ∧
      (g.getGridCoordinates x y z).x - (g.minBin m).x ≤ ⌊(x - m.x) / g.leaf_size_.x⌋ + 1 ∧
      ((∃ k : Int, m.x = k * g.leaf_size_.x) →
        (g.getGridCoordinates x y z).x - (g.minBin m).x = ⌊(x - m.x) / g.leaf_size_.x⌋)) ∧
    ((g.getGridCoordinates x y z).y - (g.minBin m).y =
        ⌊y / g.leaf_size_.y⌋ - ⌊m.y / g.leaf_size_.y⌋ ∧
      ⌊(y - m.y) / g.leaf_size_.y⌋ ≤ (g.getGridCoordinates x y z).y - (g.minBin m).y ∧
      (g.getGridCoordinates x y z).y - (g.minBin m).y ≤ ⌊(y - m.y) / g.leaf_size_.y⌋ + 1 ∧
      ((∃ k : Int, m.y = k * g.leaf_size_.y) →
        (g.getGridCoordinates x y z).y - (g.minBin m).y = ⌊(y - m.y) / g.leaf_size_.y⌋)) ∧
    ((g.getGridCoordinates x y z).z - (g.minBin m).z =
        ⌊z / g.leaf_size_.z⌋ - ⌊m.z / g.leaf_size_.z⌋ ∧
      ⌊(z - m.z) / g.leaf_size_.z⌋ ≤ (g.getGridCoordinates x y z).z - (g.minBin m).z ∧
      (g.getGridCoordinates x y z).z - (g.minBin m).z ≤ ⌊(z - m.z) / g.leaf_size_.z⌋ + 1 ∧
      ((∃ k : Int, m.z = k * g.leaf_size_.z) →
        (g.getGridCoordinates x y z).z - (g.minBin m).z = ⌊(z - m.z) / g.leaf_size_.z⌋)) := by
  obtain ⟨hx, hy, hz⟩ := hpos
  unfold VoxelGridT.getGridCoordinates VoxelGridT.minBin
  rw [hinv]
  unfold Vector4f.div Vector4f.Ones
  exact ⟨axis_relative_cell _ x m.x hx, axis_relative_cell _ y m.y hy,
    axis_relative_cell _ z m.z hz⟩

/-- Witness for C3: the unit grid, bounding-box minimum 1/2 and the point (1,0,0). -/
theorem gridCoordinates_relative_witness :
    (VoxelGridT.ctor.setLeafSize3 1 1 1).inverse_leaf_size_ =
      Vector4f.Ones.div (VoxelGridT.ctor.setLeafSize3 1 1 1).leaf_size_ ∧
    (VoxelGridT.ctor.setLeafSize3 1 1 1).leafSizePositive ∧
    ((VoxelGridT.ctor.setLeafSize3 1 1 1).getGridCoordinates 1 0 0).x -
        ((VoxelGridT.ctor.setLeafSize3 1 1 1).minBin ⟨1 / 2, 0, 0⟩).x ≤
      ⌊((1 : ℚ) - (⟨1 / 2, 0, 0⟩ : Vector3f).x) /
        (VoxelGridT.ctor.setLeafSize3 1 1 1).leaf_size_.x⌋ + 1 :=
  ⟨unit_grid_inverse.1, unit_grid_inverse.2,
    (gridCoordinates_relative (VoxelGridT.ctor.setLeafSize3 1 1 1) unit_grid_inverse.1
      unit_grid_inverse.2 ⟨1 / 2, 0, 0⟩ 1 0 0).1.2.2.1⟩

/-! ## Leaf size -/

/-- C4 refuted as stated: `setLeafSize` does not fail on a non-positive leaf size. Both
overloads store (0, -1, 1) as given, so a reachable grid state holds a leaf size that
is not positive on every axis; the freshly constructed grid holds the leaf size zero. -/
theorem setLeafSize_nonpositive_counterexample :
    (VoxelGridT.ctor.setLeafSize3 0 (-1) 1).getLeafSize = ⟨0, -1, 1⟩ ∧
    (VoxelGridT.ctor.setLeafSize ⟨0, -1, 1, 0⟩).getLeafSize = ⟨0, -1, 1⟩ ∧
    (Reachable (VoxelGridT.ctor.setLeafSize3 0 (-1) 1) ∧
      ¬ (VoxelGridT.ctor.setLeafSize3 0 (-1) 1).leafSizePositive) ∧
    (Reachable (VoxelGridT.ctor.setLeafSize ⟨0, -1, 1, 0⟩) ∧
      ¬ (VoxelGridT.ctor.setLeafSize ⟨0, -1, 1, 0⟩).leafSizePositive) ∧
    (Reachable VoxelGridT.ctor ∧ ¬ VoxelGridT.ctor.leafSizePositive) :=
  ⟨by decide, by decide,
    ⟨Reachable.setLeafSize3 _ _ _ _ Reachable.ctor, by decide⟩,
    ⟨Reachable.setLeafSize _ _ Reachable.ctor, by decide⟩,
    ⟨Reachable.ctor, by decide⟩⟩

/-- C4 as amended: `setLeafSize` validates nothing and always returns a grid state. For
every prior state and every leaf size, either overload stores the given x, y and z
components unchanged, so the stored leaf size is strictly positive on every axis
exactly when the given one is; the default-constructed grid holds the leaf size zero. -/
theorem setLeafSize_stores_given (g : VoxelGridT) (lx ly lz w : Rat) :
    ((g.setLeafSize3 lx ly lz).getLeafSize = ⟨lx, ly, lz⟩ ∧
      ((g.setLeafSize3 lx ly lz).leafSizePositive ↔ 0 < lx ∧ 0 < ly ∧ 0 < lz)) ∧
    ((g.setLeafSize ⟨lx, ly, lz, w⟩).getLeafSize = ⟨lx, ly, lz⟩ ∧
      ((g.setLeafSize ⟨lx, ly, lz, w⟩).leafSizePositive ↔ 0 < lx ∧ 0 < ly ∧ 0 < lz)) ∧
    VoxelGridT.ctor.getLeafSize = ⟨0, 0, 0⟩ := by
  unfold VoxelGridT.setLeafSize3 VoxelGridT.setLeafSize VoxelGridT.getLeafSize
    VoxelGridT.leafSizePositive Vector4f.head3
  refine ⟨⟨?_, ?_⟩, ⟨?_, ?_⟩, rfl⟩
  · by_cases h : g.leaf_size_.w = 0 <;> simp [h]
  · by_cases h : g.leaf_size_.w = 0 <;> simp [h]
  · by_cases h : w = 0 <;> simp [h]
  · by_cases h : w = 0 <;> simp [h]

/-- The exact-arithmetic `setLeafSize` members of the grid are the abstract ones at the
rational operations. -/
theorem leafMembers_setLeafSize (g : VoxelGridT) (l : Vector4f) (lx ly lz : Rat) :
    (g.setLeafSize l).leafMembers = g.leafMembers.setLeafSize ratOps l.toArray4 ∧
    (g.setLeafSize3 lx ly lz).leafMembers = g.leafMembers.setLeafSize3 ratOps lx ly lz := by
  unfold VoxelGridT.setLeafSize VoxelGridT.setLeafSize3 VoxelGridT.leafMembers
    LeafMembers.setLeafSize LeafMembers.setLeafSize3 Array4.onesDiv Vector4f.toArray4
    Vector4f.div Vector4f.Ones ratOps
  constructor
  · by_cases h : l.w = 0 <;> simp [h]
  · by_cases h : g.leaf_size_.w = 0 <;> simp [h]

theorem toSizeT_of_nonneg {i : Int} (h0 : 0 ≤ i) (hf : fitsInt32 i) :
    toSizeT i = i.toNat := by
  unfold fitsInt32 at hf
  unfold toSizeT
  omega

theorem toSizeT_of_neg {i : Int} (hneg : i < 0) (hf : fitsInt32 i) :
    18446744071562067968 ≤ toSizeT i := by
  unfold fitsInt32 at hf
  unfold toSizeT
  omega

/-- A read at an `int` index that is negative or not below the size leaves the vector. -/
theorem getElem?_toSizeT_none (l : List Int) (hs : (l.length : Int) < 2147483648)
    {i : Int} (hf : fitsInt32 i) (h : i < 0 ∨ (l.length : Int) ≤ i) :
    l[toSizeT i]? = none := by
  apply List.getElem?_eq_none
  rcases h with h | h
  · have := toSizeT_of_neg h hf
    omega
  · have h0 : 0 ≤ i := by omega
    rw [toSizeT_of_nonneg h0 hf]
    omega

theorem fitsInt32_linearIndex (g : VoxelGridT) (c : Vector3i) :
    fitsInt32 (g.linearIndex c) := by
  unfold VoxelGridT.linearIndex Vector4i.dot
  exact fitsInt32_wrapInt32 _

theorem getCentroidIndex_eq (g : VoxelGridT) (p : PointXYZ) :
    g.getCentroidIndex p =
      match g.leaf_layout_[toSizeT (g.linearIndex (g.getGridCoordinates p.x p.y p.z))]? with
      | some v => Except.ok v
      | none => Except.error Exception.out_of_range := rfl

/-- On a layout whose size an `int` holds, `getCentroidIndex` raises exactly when the
guard of `getCentroidIndexAt` fires, and otherwise returns what `getCentroidIndexAt`
returns for the cell of the point. -/
theorem getCentroidIndex_cases (g : VoxelGridT)
    (hs : (g.leaf_layout_.length : Int) < 2147483648) (p : PointXYZ) :
    (g.outsideLayout (g.linearIndex (g.getGridCoordinates p.x p.y p.z)) →
      g.getCentroidIndex p = Except.error Exception.out_of_range) ∧
    (¬ g.outsideLayout (g.linearIndex (g.getGridCoordinates p.x p.y p.z)) →
      g.getCentroidIndex p =
        Except.ok (g.getCentroidIndexAt (g.getGridCoordinates p.x p.y p.z))) := by
  have hf := fitsInt32_linearIndex g (g.getGridCoordinates p.x p.y p.z)
  constructor
  · intro hout
    rw [outsideLayout_iff g hs] at hout
    rw [getCentroidIndex_eq, getElem?_toSizeT_none g.leaf_layout_ hs hf hout]
  · intro hin
    have hget := getCentroidIndexAt_of_not_outside g _ hin
    rw [outsideLayout_iff g hs] at hin
    have h0 : 0 ≤ g.linearIndex (g.getGridCoordinates p.x p.y p.z) := by omega
    rw [getCentroidIndex_eq, toSizeT_of_nonneg h0 hf, hget]

/-- C6: for a grid with a saved leaf layout and every point p, with `cell` the result
of `getGridCoordinates(p.x, p.y, p.z)`: if `cell` lies inside `[min_b, max_b]` then
`getCentroidIndex(p)` returns the value `getCentroidIndexAt(cell)` returns;
`getCentroidIndex(p)` raises the out-of-range error exactly when the linear index
`(cell - min_b) . divb_mul` is negative or at least `leaf_layout_.size()`, which is
exactly when the bounds guard of `getCentroidIndexAt` fires; whenever it does not
raise it returns the value of `getCentroidIndexAt(cell)`. -/
theorem getCentroidIndex_refines_getCentroidIndexAt (g : VoxelGridT)
    (hg : g.LeafLayoutSaved) (p : PointXYZ) :
    (g.inBounds (g.getGridCoordinates p.x p.y p.z) →
      g.getCentroidIndex p =
        Except.ok (g.getCentroidIndexAt (g.getGridCoordinates p.x p.y p.z))) ∧
    (g.getCentroidIndex p = Except.error Exception.out_of_range ↔
      g.linearIndex (g.getGridCoordinates p.x p.y p.z) < 0 ∨
        (g.leaf_layout_.length : Int) ≤
          g.linearIndex (g.getGridCoordinates p.x p.y p.z)) ∧
    (g.getCentroidIndex p = Except.error Exception.out_of_range ↔
      g.outsideLayout (g.linearIndex (g.getGridCoordinates p.x p.y p.z))) ∧
    (g.getCentroidIndex p ≠ Except.error Exception.out_of_range →
      g.getCentroidIndex p =
        Except.ok (g.getCentroidIndexAt (g.getGridCoordinates p.x p.y p.z))) := by
  obtain ⟨hout, hin⟩ := getCentroidIndex_cases g hg.size_fits p
  have hiff : g.getCentroidIndex p = Except.error Exception.out_of_range ↔
      g.outsideLayout (g.linearIndex (g.getGridCoordinates p.x p.y p.z)) := by
    constructor
    · intro herr
      by_contra hno
      rw [hin hno] at herr
      cases herr
    · exact hout
  refine ⟨?_, ?_, hiff, ?_⟩
  · intro hc
    apply hin
    have hr := layoutPosition_range g hg _ hc
    rw [outsideLayout_iff g hg.size_fits, linearIndex_eq_layoutPosition g hg _ hc]
    omega
  · rw [hiff, outsideLayout_iff g hg.size_fits]
  · intro hne
    apply hin
    intro ho
    exact hne (hout ho)

/-! ## Neighbour lookup -/

/-- The `int` dot product of `a + d - b` agrees with the exact sum of products
modulo `2^32`. -/
theorem dot_add_sub_modEq (a d b m : Vector4i) :
    ((a.add d).sub b).dot m ≡
      (a.x + d.x - b.x) * m.x + (a.y + d.y - b.y) * m.y + (a.z + d.z - b.z) * m.z +
        (a.w + d.w - b.w) * m.w [ZMOD 4294967296] := by
  refine (dot_sub_modEq (a.add d) b m).trans ?_
  unfold Vector4i.add
  simp only
  exact Int.ModEq.add (Int.ModEq.add (Int.ModEq.add
    (((wrapInt32_modEq _).sub_right _).mul_right _)
    (((wrapInt32_modEq _).sub_right _).mul_right _))
    (((wrapInt32_modEq _).sub_right _).mul_right _))
    (((wrapInt32_modEq _).sub_right _).mul_right _)

/-- With a saved layout the exact dot product is the documented position. -/
theorem dotPosition_eq_layoutPosition (g : VoxelGridT) (hg : g.LeafLayoutSaved)
    (c : Vector3i) : g.dotPosition c = g.layoutPosition c := by
  unfold VoxelGridT.dotPosition VoxelGridT.layoutPosition
  rw [hg.mul_x, hg.mul_y, hg.mul_z]
  ring

/-- The in-grid test of `getNeighborCentroidIndices` is the bounds test on the exact
cell, provided the two subtractions from the reference cell do not overflow. -/
theorem neighbor_test_iff (g : VoxelGridT) (hg : g.LeafLayoutSaved) (p : PointXYZ)
    (hfit : g.diffsFit (g.pointCell p)) (col : Vector3i) :
    ((g.min_b_.sub (g.pointCell p)).allLE col.append0 ∧
        (g.max_b_.sub (g.pointCell p)).allGE col.append0) ↔
      g.inBounds (g.neighborCell p col) := by
  obtain ⟨⟨h1, h2, h3⟩, ⟨h4, h5, h6⟩⟩ := hfit
  have hz : wrapInt32 (0 - 0) = 0 := by decide
  unfold Vector4i.allLE Vector4i.allGE Vector4i.sub Vector3i.append0 VoxelGridT.inBounds
    VoxelGridT.neighborCell VoxelGridT.getGridCoordinates
  dsimp only [VoxelGridT.pointCell] at h1 h2 h3 h4 h5 h6 ⊢
  rw [wrapInt32_of_fits h1, wrapInt32_of_fits h2, wrapInt32_of_fits h3,
    wrapInt32_of_fits h4, wrapInt32_of_fits h5, wrapInt32_of_fits h6, hg.min_w, hg.max_w, hz]
  omega

/-- For a cell inside the bounds the index read by `getNeighborCentroidIndices` is the
exact position `(cell - min_b) . divb_mul`, a valid index of the layout. -/
theorem neighbor_index_eq (g : VoxelGridT) (hg : g.LeafLayoutSaved) (p : PointXYZ)
    (col : Vector3i) (hc : g.inBounds (g.neighborCell p col)) :
    (0 ≤ g.dotPosition (g.neighborCell p col) ∧
      g.dotPosition (g.neighborCell p col) < g.leaf_layout_.length) ∧
    toSizeT ((((g.pointCell p).add col.append0).sub g.min_b_).dot g.divb_mul_) =
      (g.dotPosition (g.neighborCell p col)).toNat := by
  have hr := layoutPosition_range g hg _ hc
  rw [← dotPosition_eq_layoutPosition g hg] at hr
  have hs := hg.size_fits
  have hfit : fitsInt32 (g.dotPosition (g.neighborCell p col)) := by
    unfold fitsInt32; omega
  have hm := dot_add_sub_modEq (g.pointCell p) col.append0 g.min_b_ g.divb_mul_
  have hexact : ((g.pointCell p).x + col.append0.x - g.min_b_.x) * g.divb_mul_.x +
      ((g.pointCell p).y + col.append0.y - g.min_b_.y) * g.divb_mul_.y +
      ((g.pointCell p).z + col.append0.z - g.min_b_.z) * g.divb_mul_.z +
      ((g.pointCell p).w + col.append0.w - g.min_b_.w) * g.divb_mul_.w =
      g.dotPosition (g.neighborCell p col) := by
    unfold VoxelGridT.dotPosition VoxelGridT.neighborCell VoxelGridT.getGridCoordinates
      VoxelGridT.pointCell Vector3i.append0
    simp only [hg.min_w]
    ring
  rw [hexact] at hm
  have hdot : fitsInt32 ((((g.pointCell p).add col.append0).sub g.min_b_).dot g.divb_mul_) := by
    unfold Vector4i.dot
    exact fitsInt32_wrapInt32 _
  have heq : (((g.pointCell p).add col.append0).sub g.min_b_).dot g.divb_mul_ =
      g.dotPosition (g.neighborCell p col) := by
    rw [← wrapInt32_of_fits hdot]
    exact wrapInt32_eq_of_modEq hm hfit
  rw [heq]
  exact ⟨hr, toSizeT_of_nonneg hr.1 hfit⟩

/-- One entry of the result of `getNeighborCentroidIndices`. -/
theorem neighborEntry_spec (g : VoxelGridT) (hg : g.LeafLayoutSaved) (p : PointXYZ)
    (hfit : g.diffsFit (g.pointCell p)) (col : Vector3i) :
    (¬ g.inBounds (g.neighborCell p col) →
      g.neighborEntry (g.pointCell p) (g.min_b_.sub (g.pointCell p))
        (g.max_b_.sub (g.pointCell p)) col = some (-1)) ∧
    (g.inBounds (g.neighborCell p col) →
      g.neighborEntry (g.pointCell p) (g.min_b_.sub (g.pointCell p))
        (g.max_b_.sub (g.pointCell p)) col =
          g.leaf_layout_[(g.dotPosition (g.neighborCell p col)).toNat]?) := by
  have ht := neighbor_test_iff g hg p hfit col
  unfold VoxelGridT.neighborEntry
  constructor
  · intro hc
    have hn := mt ht.mp hc
    simp only [if_neg hn]
  · intro hc
    have hy := ht.mpr hc
    simp only [if_pos hy]
    rw [(neighbor_index_eq g hg p col hc).2]

/-- The loop of `getNeighborCentroidIndices` stores one value per column when every
read stays inside the vector. -/
theorem neighborLoop_eq_map (g : VoxelGridT) (ijk d1 d2 : Vector4i) (f : Vector3i → Int)
    (hf : ∀ col, g.neighborEntry ijk d1 d2 col = some (f col)) (rel : List Vector3i) :
    g.neighborLoop ijk d1 d2 rel = some (rel.map f) := by
  induction rel with
  | nil => rfl
  | cons col rest ih =>
    unfold VoxelGridT.neighborLoop
    rw [hf col, ih]
    rfl

/-- The sample grid `grid211` is a grid with a saved leaf layout. -/
theorem grid211_saved : grid211.LeafLayoutSaved := by
  constructor <;> decide

/-- The cell `getGridCoordinates` assigns to a point with integer coordinates in the
sample grid `grid211`, whose leaf size is 1. -/
theorem grid211_getGridCoordinates (i j k : Int) :
    grid211.getGridCoordinates i j k = ⟨i, j, k⟩ := by
  have hinv : grid211.inverse_leaf_size_ = ⟨1, 1, 1, 1⟩ := by
    norm_num [grid211, VoxelGridT.setLeafSize3, VoxelGridT.ctor, Vector4f.Ones,
      Vector4f.div, Vector4f.Zero]
  unfold VoxelGridT.getGridCoordinates
  rw [hinv]
  simp

/-- The cell `getGridCoordinates` assigns to a point with integer coordinates in the
sample grid, whose leaf size is 1. -/
theorem grid221_getGridCoordinates (i j k : Int) :
    grid221.getGridCoordinates i j k = ⟨i, j, k⟩ := by
  have hinv : grid221.inverse_leaf_size_ = ⟨1, 1, 1, 1⟩ := by
    norm_num [grid221, VoxelGridT.setLeafSize3, VoxelGridT.ctor, Vector4f.Ones,
      Vector4f.div, Vector4f.Zero]
  unfold VoxelGridT.getGridCoordinates
  rw [hinv]
  simp

/-- Witness for C6: in `grid221` the point (1,1,0) lies in the in-bounds cell (1,1,0)
and both lookups give centroid 2; the point (5,0,0) has linear index 5 and raises. -/
theorem getCentroidIndex_refines_getCentroidIndexAt_witness :
    grid221.LeafLayoutSaved ∧
    grid221.getCentroidIndex ⟨1, 1, 0⟩ =
      Except.ok (grid221.getCentroidIndexAt (grid221.getGridCoordinates 1 1 0)) ∧
    grid221.getCentroidIndexAt (grid221.getGridCoordinates 1 1 0) = 2 ∧
    grid221.getCentroidIndex ⟨5, 0, 0⟩ = Except.error Exception.out_of_range := by
  have h1 : grid221.getGridCoordinates 1 1 0 = ⟨1, 1, 0⟩ := by
    have := grid221_getGridCoordinates 1 1 0
    simpa using this
  have h5 : grid221.getGridCoordinates 5 0 0 = ⟨5, 0, 0⟩ := by
    have := grid221_getGridCoordinates 5 0 0
    simpa using this
  refine ⟨grid221_saved, ?_, ?_, ?_⟩
  · exact (getCentroidIndex_refines_getCentroidIndexAt grid221 grid221_saved ⟨1, 1, 0⟩).1
      (by rw [h1]; decide)
  · rw [h1]; decide
  · exact (getCentroidIndex_refines_getCentroidIndexAt grid221 grid221_saved ⟨5, 0, 0⟩).2.1.mpr
      (by rw [h5]; decide)

/-- A digit below the radix and a quotient are determined by their combination. -/
theorem digit_unique (a a' q q' X : Int) (ha0 : 0 ≤ a) (ha : a < X) (ha0' : 0 ≤ a')
    (ha' : a' < X) (h : a + X * q = a' + X * q') : a = a' ∧ q = q' := by
  have h1 : (a + X * q) % X = a := by
    rw [Int.add_mul_emod_self_left]
    exact Int.emod_eq_of_lt ha0 ha
  have h2 : (a' + X * q') % X = a' := by
    rw [Int.add_mul_emod_self_left]
    exact Int.emod_eq_of_lt ha0' ha'
  have haa : a = a' := by
    rw [← h1, ← h2, h]
  refine ⟨haa, ?_⟩
  have hX : X ≠ 0 := by omega
  have hq : X * q = X * q' := by
    rw [haa] at h
    exact add_left_cancel h
  exact mul_left_cancel₀ hX hq

/-- Three digits in the radices X, Y, Z combine to a number below X*Y*Z. -/
theorem mixed_radix_range (a b c X Y Z : Int) (ha0 : 0 ≤ a) (ha : a < X) (hb0 : 0 ≤ b)
    (hb : b < Y) (hc0 : 0 ≤ c) (hc : c < Z) :
    0 ≤ a + b * X + c * (X * Y) ∧ a + b * X + c * (X * Y) < X * Y * Z := by
  have hX : 0 ≤ X := by omega
  have hY : 0 ≤ Y := by omega
  have hXY : 0 ≤ X * Y := mul_nonneg hX hY
  have h1 : 0 ≤ b * X := mul_nonneg hb0 hX
  have h2 : 0 ≤ c * (X * Y) := mul_nonneg hc0 hXY
  have h3 : (b + 1) * X ≤ Y * X := mul_le_mul_of_nonneg_right (by omega) hX
  have h4 : (c + 1) * (X * Y) ≤ Z * (X * Y) := mul_le_mul_of_nonneg_right (by omega) hXY
  constructor
  · linarith
  · nlinarith

/-- The combination of three digits determines the digits. -/
theorem mixed_radix_inj (a b c a' b' c' X Y : Int) (ha0 : 0 ≤ a) (ha : a < X)
    (hb0 : 0 ≤ b) (hb : b < Y) (ha0' : 0 ≤ a') (ha' : a' < X) (hb0' : 0 ≤ b')
    (hb' : b' < Y) (h : a + b * X + c * (X * Y) = a' + b' * X + c' * (X * Y)) :
    a = a' ∧ b = b' ∧ c = c' := by
  have h1 : a + X * (b + Y * c) = a' + X * (b' + Y * c') := by
    have e1 : a + X * (b + Y * c) = a + b * X + c * (X * Y) := by ring
    have e2 : a' + X * (b' + Y * c') = a' + b' * X + c' * (X * Y) := by ring
    rw [e1, e2, h]
  obtain ⟨haa, hq⟩ := digit_unique a a' _ _ X ha0 ha ha0' ha' h1
  obtain ⟨hbb, hcc⟩ := digit_unique b b' c c' Y hb0 hb hb0' hb' hq
  exact ⟨haa, hbb, hcc⟩

/-- Every number in `[0, X*Y*Z)` is the combination of three digits. -/
theorem mixed_radix_surj (n X Y Z : Int) (hX : 0 < X) (hY : 0 < Y) (hn0 : 0 ≤ n)
    (hn : n < X * Y * Z) :
    ∃ a b c : Int, (0 ≤ a ∧ a < X) ∧ (0 ≤ b ∧ b < Y) ∧ (0 ≤ c ∧ c < Z) ∧
      a + b * X + c * (X * Y) = n := by
  have hq0 : 0 ≤ n / X := Int.ediv_nonneg hn0 (le_of_lt hX)
  have hq : n / X < Y * Z := by
    apply Int.ediv_lt_of_lt_mul hX
    have e : Y * Z * X = X * Y * Z := by ring
    rw [e]
    exact hn
  have hc : n / X / Y < Z := by
    apply Int.ediv_lt_of_lt_mul hY
    have e : Z * Y = Y * Z := by ring
    rw [e]
    exact hq
  refine ⟨n % X, n / X % Y, n / X / Y,
    ⟨Int.emod_nonneg _ (ne_of_gt hX), Int.emod_lt_of_pos _ hX⟩,
    ⟨Int.emod_nonneg _ (ne_of_gt hY), Int.emod_lt_of_pos _ hY⟩,
    ⟨Int.ediv_nonneg hq0 (le_of_lt hY), hc⟩, ?_⟩
  have e1 := Int.emod_add_ediv n X
  have e2 := Int.emod_add_ediv (n / X) Y
  calc n % X + n / X % Y * X + n / X / Y * (X * Y)
      = n % X + X * (n / X % Y + Y * (n / X / Y)) := by ring
    _ = n % X + X * (n / X) := by rw [e2]
    _ = n := e1

/-- The exact position of a cell, written with the digits `cell - min_b`. -/
theorem dotPosition_digits (g : VoxelGridT) (hd : g.GridDims) (c : Vector3i) :
    g.dotPosition c = (c.x - g.min_b_.x) + (c.y - g.min_b_.y) * g.div_b_.x +
      (c.z - g.min_b_.z) * (g.div_b_.x * g.div_b_.y) := by
  unfold VoxelGridT.dotPosition
  rw [hd.mul_x, hd.mul_y, hd.mul_z]
  ring

/-- The `int` linear index is the exact position whenever that position fits an `int`
and the fourth component of `min_b_` is zero. -/
theorem linearIndex_eq_dotPosition (g : VoxelGridT) (hw : g.min_b_.w = 0) (c : Vector3i)
    (hfit : fitsInt32 (g.dotPosition c)) : g.linearIndex c = g.dotPosition c := by
  have hm := dot_sub_modEq c.append0 g.min_b_ g.divb_mul_
  have hexact : (c.append0.x - g.min_b_.x) * g.divb_mul_.x +
      (c.append0.y - g.min_b_.y) * g.divb_mul_.y +
      (c.append0.z - g.min_b_.z) * g.divb_mul_.z +
      (c.append0.w - g.min_b_.w) * g.divb_mul_.w = g.dotPosition c := by
    unfold VoxelGridT.dotPosition Vector3i.append0
    simp only [hw]
    ring
  rw [hexact] at hm
  have hdot := fitsInt32_linearIndex g c
  rw [← wrapInt32_of_fits hdot]
  exact wrapInt32_eq_of_modEq hm hfit

/-- The exact position is injective on the cells inside the bounds. -/
theorem dotPosition_inj (g : VoxelGridT) (hd : g.GridDims) (c c' : Vector3i)
    (hc : g.inBounds c) (hc' : g.inBounds c') (h : g.dotPosition c = g.dotPosition c') :
    c = c' := by
  obtain ⟨⟨hx0, hx1⟩, ⟨hy0, hy1⟩, ⟨hz0, hz1⟩⟩ := hc
  obtain ⟨⟨hx0', hx1'⟩, ⟨hy0', hy1'⟩, ⟨hz0', hz1'⟩⟩ := hc'
  have hdx := hd.div_x
  have hdy := hd.div_y
  rw [dotPosition_digits g hd c, dotPosition_digits g hd c'] at h
  obtain ⟨h1, h2, h3⟩ := mixed_radix_inj _ _ _ _ _ _ _ _ (by omega) (by omega) (by omega)
    (by omega) (by omega) (by omega) (by omega) (by omega) h
  cases c
  cases c'
  simp only [Vector3i.mk.injEq]
  simp only at h1 h2 h3
  omega

/-- The exact position of a cell inside the bounds lies in `[0, div_x*div_y*div_z)`. -/
theorem dotPosition_range (g : VoxelGridT) (hd : g.GridDims) (c : Vector3i)
    (hc : g.inBounds c) :
    0 ≤ g.dotPosition c ∧ g.dotPosition c < g.div_b_.x * g.div_b_.y * g.div_b_.z := by
  obtain ⟨⟨hx0, hx1⟩, ⟨hy0, hy1⟩, ⟨hz0, hz1⟩⟩ := hc
  have hdx := hd.div_x
  have hdy := hd.div_y
  have hdz := hd.div_z
  rw [dotPosition_digits g hd c]
  exact mixed_radix_range _ _ _ _ _ _ (by omega) (by omega) (by omega) (by omega)
    (by omega) (by omega)

/-- Every position in `[0, div_x*div_y*div_z)` is the exact position of a cell inside
the bounds. -/
theorem dotPosition_surj (g : VoxelGridT) (hd : g.GridDims) (n : Int) (hn0 : 0 ≤ n)
    (hn : n < g.div_b_.x * g.div_b_.y * g.div_b_.z) :
    ∃ c : Vector3i, g.inBounds c ∧ g.dotPosition c = n := by
  have hdx := hd.div_x
  have hdy := hd.div_y
  have hdz := hd.div_z
  have h1x := hd.one_le_x
  have h1y := hd.one_le_y
  obtain ⟨a, b, c, ⟨ha0, ha⟩, ⟨hb0, hb⟩, ⟨hc0, hc⟩, hsum⟩ :=
    mixed_radix_surj n g.div_b_.x g.div_b_.y g.div_b_.z (by omega) (by omega) hn0 hn
  refine ⟨⟨g.min_b_.x + a, g.min_b_.y + b, g.min_b_.z + c⟩, ?_, ?_⟩
  · unfold VoxelGridT.inBounds
    simp only
    omega
  · rw [dotPosition_digits g hd]
    simp only [add_sub_cancel_left]
    exact hsum

/-- The sample grid `grid221` has the dimensions of a built grid. -/
theorem grid221_dims : grid221.GridDims := by
  constructor <;> decide

/-- C13: for every grid with `div_b = max_b - min_b + 1 >= 1` per axis and
`divb_mul = (1, div_x, div_x*div_y)`, the position `(ijk - min_b) . divb_mul` is
injective on the cells with `min_b <= ijk <= max_b` and maps them onto exactly the
range `[0, div_x*div_y*div_z)`. The same holds for the linear index as
`getCentroidIndexAt` computes it in `int` when the fourth component of `min_b_` is
zero and `div_x*div_y*div_z` fits an `int`. -/
theorem linearIndex_bijective_inBounds (g : VoxelGridT) (hd : g.GridDims) :
    ((∀ c c' : Vector3i, g.inBounds c → g.inBounds c' →
        g.dotPosition c = g.dotPosition c' → c = c') ∧
      (∀ c : Vector3i, g.inBounds c →
        0 ≤ g.dotPosition c ∧ g.dotPosition c < g.div_b_.x * g.div_b_.y * g.div_b_.z) ∧
      (∀ n : Int, 0 ≤ n → n < g.div_b_.x * g.div_b_.y * g.div_b_.z →
        ∃ c : Vector3i, g.inBounds c ∧ g.dotPosition c = n)) ∧
    (g.min_b_.w = 0 → g.div_b_.x * g.div_b_.y * g.div_b_.z < 2147483648 →
      (∀ c c' : Vector3i, g.inBounds c → g.inBounds c' →
        g.linearIndex c = g.linearIndex c' → c = c') ∧
      (∀ c : Vector3i, g.inBounds c →
        0 ≤ g.linearIndex c ∧ g.linearIndex c < g.div_b_.x * g.div_b_.y * g.div_b_.z) ∧
      (∀ n : Int, 0 ≤ n → n < g.div_b_.x * g.div_b_.y * g.div_b_.z →
        ∃ c : Vector3i, g.inBounds c ∧ g.linearIndex c = n)) := by
  refine ⟨⟨dotPosition_inj g hd, dotPosition_range g hd, dotPosition_surj g hd⟩, ?_⟩
  intro hw hN
  have heq : ∀ c : Vector3i, g.inBounds c → g.linearIndex c = g.dotPosition c := by
    intro c hc
    have hr := dotPosition_range g hd c hc
    apply linearIndex_eq_dotPosition g hw c
    unfold fitsInt32
    omega
  refine ⟨?_, ?_, ?_⟩
  · intro c c' hc hc' h
    rw [heq c hc, heq c' hc'] at h
    exact dotPosition_inj g hd c c' hc hc' h
  · intro c hc
    rw [heq c hc]
    exact dotPosition_range g hd c hc
  · intro n hn0 hn
    obtain ⟨c, hc, hcn⟩ := dotPosition_surj g hd n hn0 hn
    exact ⟨c, hc, by rw [heq c hc, hcn]⟩

/-- Witness for C13: in `grid221` the `int` linear index is injective on the four cells
inside the bounds and the position 3 is taken by a cell inside the bounds. -/
theorem linearIndex_bijective_inBounds_witness :
    grid221.GridDims ∧
    (∀ c c' : Vector3i, grid221.inBounds c → grid221.inBounds c' →
      grid221.linearIndex c = grid221.linearIndex c' → c = c') ∧
    (∃ c : Vector3i, grid221.inBounds c ∧ grid221.linearIndex c = 3) ∧
    grid221.linearIndex ⟨1, 1, 0⟩ = 3 :=
  ⟨grid221_dims,
    ((linearIndex_bijective_inBounds grid221 grid221_dims).2 (by decide) (by decide)).1,
    ((linearIndex_bijective_inBounds grid221 grid221_dims).2 (by decide) (by decide)).2.2 3
      (by decide) (by decide),
    by decide⟩

/-! ## Safety of the neighbour lookup -/

/-- The `int` dot product agrees with the exact sum of products modulo `2^32`. -/
theorem dot_modEq (a m : Vector4i) :
    a.dot m ≡ a.x * m.x + a.y * m.y + a.z * m.z + a.w * m.w [ZMOD 4294967296] := by
  unfold Vector4i.dot
  refine (wrapInt32_modEq _).trans ?_
  refine Int.ModEq.add ?_ (wrapInt32_modEq _)
  refine (wrapInt32_modEq _).trans ?_
  refine Int.ModEq.add ?_ (wrapInt32_modEq _)
  refine (wrapInt32_modEq _).trans ?_
  exact Int.ModEq.add (wrapInt32_modEq _) (wrapInt32_modEq _)

/-- One axis of the in-grid test of `getNeighborCentroidIndices`: when the displacement
`d` passes `min - i <= d <= max - i` as computed in `int`, the offset `i + d - min`
computed in `int` is a digit below the number of divisions, whatever wrapped around. -/
theorem axis_offset_range (m M i d X : Int) (hX1 : 1 ≤ X) (hX : X < 2147483648)
    (hdiv : X = M - m + 1) (hmin : wrapInt32 (m - i) ≤ d) (hmax : d ≤ wrapInt32 (M - i)) :
    0 ≤ wrapInt32 (wrapInt32 (i + d) - m) ∧ wrapInt32 (wrapInt32 (i + d) - m) < X := by
  unfold wrapInt32 at hmin hmax ⊢
  omega

/-- With a saved layout and at least one division per axis, each number of divisions
fits an `int`. -/
theorem div_lt_of_saved (g : VoxelGridT) (hg : g.LeafLayoutSaved) (h1x : 1 ≤ g.div_b_.x)
    (h1y : 1 ≤ g.div_b_.y) (h1z : 1 ≤ g.div_b_.z) :
    g.div_b_.x < 2147483648 ∧ g.div_b_.y < 2147483648 ∧ g.div_b_.z < 2147483648 := by
  have hs := hg.size_fits
  rw [hg.size] at hs
  have hxy : 1 ≤ g.div_b_.x * g.div_b_.y := one_le_mul_of_one_le_of_one_le h1x h1y
  have e1 : g.div_b_.x * 1 ≤ g.div_b_.x * g.div_b_.y :=
    mul_le_mul_of_nonneg_left h1y (by omega)
  have e2 : 1 * g.div_b_.y ≤ g.div_b_.x * g.div_b_.y :=
    mul_le_mul_of_nonneg_right h1x (by omega)
  have e3 : g.div_b_.x * g.div_b_.y * 1 ≤ g.div_b_.x * g.div_b_.y * g.div_b_.z :=
    mul_le_mul_of_nonneg_left h1z (by omega)
  have e4 : 1 * g.div_b_.z ≤ g.div_b_.x * g.div_b_.y * g.div_b_.z :=
    mul_le_mul_of_nonneg_right hxy (by omega)
  refine ⟨?_, ?_, ?_⟩ <;> linarith

/-- The index that `getNeighborCentroidIndices` reads without a check, for a column that
passed the in-grid test, lies inside the layout. -/
theorem neighbor_access_lt (g : VoxelGridT) (hg : g.LeafLayoutSaved) (h1x : 1 ≤ g.div_b_.x)
    (h1y : 1 ≤ g.div_b_.y) (h1z : 1 ≤ g.div_b_.z) (ijk : Vector4i) (hw : ijk.w = 0)
    (col : Vector3i)
    (htest : (g.min_b_.sub ijk).allLE col.append0 ∧ (g.max_b_.sub ijk).allGE col.append0) :
    toSizeT (((ijk.add col.append0).sub g.min_b_).dot g.divb_mul_) < g.leaf_layout_.length := by
  obtain ⟨hX, hY, hZ⟩ := div_lt_of_saved g hg h1x h1y h1z
  obtain ⟨⟨l1, l2, l3, _⟩, ⟨u1, u2, u3, _⟩⟩ := htest
  unfold Vector4i.sub Vector3i.append0 at l1 l2 l3 u1 u2 u3
  simp only at l1 l2 l3 u1 u2 u3
  have ax := axis_offset_range g.min_b_.x g.max_b_.x ijk.x col.x g.div_b_.x h1x hX
    hg.div_x l1 u1
  have ay := axis_offset_range g.min_b_.y g.max_b_.y ijk.y col.y g.div_b_.y h1y hY
    hg.div_y l2 u2
  have az := axis_offset_range g.min_b_.z g.max_b_.z ijk.z col.z g.div_b_.z h1z hZ
    hg.div_z l3 u3
  have hr := mixed_radix_range _ _ _ _ _ _ ax.1 ax.2 ay.1 ay.2 az.1 az.2
  have hm := dot_modEq ((ijk.add col.append0).sub g.min_b_) g.divb_mul_
  have hwz : wrapInt32 (wrapInt32 (0 + 0) - 0) = 0 := by decide
  have hexact : ((ijk.add col.append0).sub g.min_b_).x * g.divb_mul_.x +
      ((ijk.add col.append0).sub g.min_b_).y * g.divb_mul_.y +
      ((ijk.add col.append0).sub g.min_b_).z * g.divb_mul_.z +
      ((ijk.add col.append0).sub g.min_b_).w * g.divb_mul_.w =
      wrapInt32 (wrapInt32 (ijk.x + col.x) - g.min_b_.x) +
        wrapInt32 (wrapInt32 (ijk.y + col.y) - g.min_b_.y) * g.div_b_.x +
        wrapInt32 (wrapInt32 (ijk.z + col.z) - g.min_b_.z) * (g.div_b_.x * g.div_b_.y) := by
    unfold Vector4i.sub Vector4i.add Vector3i.append0
    simp only [hw, hg.min_w, hwz, hg.mul_x, hg.mul_y, hg.mul_z]
    ring
  rw [hexact] at hm
  have hs := hg.size_fits
  have hsize := hg.size
  have hfit : fitsInt32 (wrapInt32 (wrapInt32 (ijk.x + col.x) - g.min_b_.x) +
      wrapInt32 (wrapInt32 (ijk.y + col.y) - g.min_b_.y) * g.div_b_.x +
      wrapInt32 (wrapInt32 (ijk.z + col.z) - g.min_b_.z) * (g.div_b_.x * g.div_b_.y)) := by
    unfold fitsInt32; omega
  have hdot : fitsInt32 (((ijk.add col.append0).sub g.min_b_).dot g.divb_mul_) := by
    unfold Vector4i.dot
    exact fitsInt32_wrapInt32 _
  have heq := wrapInt32_eq_of_modEq hm hfit
  rw [wrapInt32_of_fits hdot] at heq
  rw [heq, toSizeT_of_nonneg hr.1 hfit]
  omega

/-- C14: under the grid invariant (saved layout with `div_b = max_b - min_b + 1 >= 1` per
axis, `divb_mul = (1, div_x, div_x*div_y)`, `leaf_layout_.size() = div_x*div_y*div_z`,
fourth components of `min_b_` and `max_b_` zero), for every reference point and every
matrix of relative coordinates, every unchecked `leaf_layout_[...]` read of
`getNeighborCentroidIndices` is at an index below `leaf_layout_.size()`: each column
that passes the test on `diff2min`/`diff2max` is read inside the vector, so the
member always returns its list of one entry per column. -/
theorem getNeighborCentroidIndices_access_safe (g : VoxelGridT) (hg : g.LeafLayoutSaved)
    (h1x : 1 ≤ g.div_b_.x) (h1y : 1 ≤ g.div_b_.y) (h1z : 1 ≤ g.div_b_.z)
    (p : PointXYZ) (rel : List Vector3i) :
    (∀ col : Vector3i,
      ((g.min_b_.sub (g.pointCell p)).allLE col.append0 ∧
        (g.max_b_.sub (g.pointCell p)).allGE col.append0) →
      toSizeT ((((g.pointCell p).add col.append0).sub g.min_b_).dot g.divb_mul_) <
        g.leaf_layout_.length) ∧
    (∀ col : Vector3i, g.neighborEntry (g.pointCell p) (g.min_b_.sub (g.pointCell p))
      (g.max_b_.sub (g.pointCell p)) col ≠ none) ∧
    ∃ out : List Int, g.getNeighborCentroidIndices p rel = some out ∧
      out.length = rel.length := by
  have hacc : ∀ col : Vector3i,
      ((g.min_b_.sub (g.pointCell p)).allLE col.append0 ∧
        (g.max_b_.sub (g.pointCell p)).allGE col.append0) →
      toSizeT ((((g.pointCell p).add col.append0).sub g.min_b_).dot g.divb_mul_) <
        g.leaf_layout_.length :=
    fun col ht => neighbor_access_lt g hg h1x h1y h1z (g.pointCell p) rfl col ht
  have hsome : ∀ col, ∃ v, g.neighborEntry (g.pointCell p) (g.min_b_.sub (g.pointCell p))
      (g.max_b_.sub (g.pointCell p)) col = some v := by
    intro col
    unfold VoxelGridT.neighborEntry
    by_cases ht : (g.min_b_.sub (g.pointCell p)).allLE col.append0 ∧
        (g.max_b_.sub (g.pointCell p)).allGE col.append0
    · simp only [if_pos ht]
      exact ⟨_, List.getElem?_eq_getElem (hacc col ht)⟩
    · simp only [if_neg ht]
      exact ⟨-1, rfl⟩
  refine ⟨hacc, ?_, ?_⟩
  · intro col hnone
    obtain ⟨v, hv⟩ := hsome col
    rw [hv] at hnone
    cases hnone
  · choose f hf using hsome
    exact ⟨rel.map f, neighborLoop_eq_map g _ _ _ f hf rel, List.length_map _ _⟩

/-- Witness for C14: in `grid221`, from the reference point (0,0,0), the columns (1,0,0)
and (2,0,0) are answered without leaving the layout. -/
theorem getNeighborCentroidIndices_access_safe_witness :
    grid221.LeafLayoutSaved ∧
    (1 ≤ grid221.div_b_.x ∧ 1 ≤ grid221.div_b_.y ∧ 1 ≤ grid221.div_b_.z) ∧
    ∃ out : List Int,
      grid221.getNeighborCentroidIndices ⟨0, 0, 0⟩ [⟨1, 0, 0⟩, ⟨2, 0, 0⟩] = some out ∧
        out.length = 2 :=
  ⟨grid221_saved, by decide,
    (getNeighborCentroidIndices_access_safe grid221 grid221_saved (by decide) (by decide)
      (by decide) ⟨0, 0, 0⟩ [⟨1, 0, 0⟩, ⟨2, 0, 0⟩]).2.2⟩

/-! ## Filter limits -/

/-- C12: a default-constructed grid reports the filter limits (-FLT_MAX, FLT_MAX) and
`getFilterLimitsNegative() = false`; for every prior state, every a, b and every flag,
after `setFilterLimits(a, b)` the member `getFilterLimits` yields (a, b), and after
`setFilterLimitsNegative(flag)` both `getFilterLimitsNegative` overloads yield flag. -/
theorem filterLimits_roundtrip :
    VoxelGridT.ctor.getFilterLimits = (-FLT_MAX, FLT_MAX) ∧
    VoxelGridT.ctor.getFilterLimitsNegative = false ∧
    VoxelGridT.ctor.getFilterLimitsNegativeOut = false ∧
    (∀ (g : VoxelGridT) (a b : Rat), (g.setFilterLimits a b).getFilterLimits = (a, b)) ∧
    (∀ (g : VoxelGridT) (flag : Bool),
      (g.setFilterLimitsNegative flag).getFilterLimitsNegative = flag ∧
      (g.setFilterLimitsNegative flag).getFilterLimitsNegativeOut = flag) :=
  ⟨rfl, rfl, rfl, fun _ _ _ => rfl, fun _ _ => ⟨rfl, rfl⟩⟩

end pcl

/-! ## Set algebra on point clouds: membership and difference -/

namespace OcclusionCullingGPU

open pcl

/-- The squared distance is non-negative. -/
theorem distSq_nonneg (a b : PointXYZ) : 0 ≤ distSq a b := by
  unfold distSq
  positivity

/-- The squared distance of a point to itself is zero. -/
theorem distSq_self (a : PointXYZ) : distSq a a = 0 := by
  unfold distSq
  ring

/-- The test of `contains` on one member is the test `distance < ε`. -/
theorem within_iff_sqrt_lt (ε : Rat) (q p : PointXYZ) :
    (0 < ε ∧ distSq q p < ε * ε) ↔ Real.sqrt ((distSq q p : ℚ) : ℝ) < (ε : ℝ) := by
  by_cases hε : 0 < ε
  · have hεR : (0 : ℝ) < (ε : ℝ) := by exact_mod_cast hε
    rw [Real.sqrt_lt' hεR]
    constructor
    · rintro ⟨_, h⟩
      have : ((distSq q p : ℚ) : ℝ) < ((ε * ε : ℚ) : ℝ) := by exact_mod_cast h
      rw [pow_two]
      exact_mod_cast this
    · intro h
      refine ⟨hε, ?_⟩
      rw [pow_two] at h
      exact_mod_cast h
  · constructor
    · rintro ⟨h, _⟩
      exact absurd h hε
    · intro h
      have h0 := Real.sqrt_nonneg ((distSq q p : ℚ) : ℝ)
      have hεR : (ε : ℝ) ≤ 0 := by exact_mod_cast not_lt.mp hε
      linarith

/-- C9: `contains(cloud, p)` is true if and only if some member of the cloud is at
Euclidean distance strictly less than the tolerance ε from p; it is false when every
member is at distance at least ε, and false for the empty cloud. -/
theorem contains_iff_within_tolerance (ε : Rat) (c : List PointXYZ) (p : PointXYZ) :
    (contains ε c p = true ↔
      ∃ q ∈ c, Real.sqrt ((distSq q p : ℚ) : ℝ) < (ε : ℝ)) ∧
    ((∀ q ∈ c, (ε : ℝ) ≤ Real.sqrt ((distSq q p : ℚ) : ℝ)) → contains ε c p = false) ∧
    contains ε [] p = false := by
  have hiff : contains ε c p = true ↔
      ∃ q ∈ c, Real.sqrt ((distSq q p : ℚ) : ℝ) < (ε : ℝ) := by
    unfold contains
    rw [List.any_eq_true]
    constructor
    · rintro ⟨q, hq, h⟩
      exact ⟨q, hq, (within_iff_sqrt_lt ε q p).mp (of_decide_eq_true h)⟩
    · rintro ⟨q, hq, h⟩
      exact ⟨q, hq, decide_eq_true ((within_iff_sqrt_lt ε q p).mpr h)⟩
  refine ⟨hiff, ?_, rfl⟩
  intro hall
  cases hc : contains ε c p with
  | false => rfl
  | true =>
    obtain ⟨q, hq, h⟩ := hiff.mp hc
    exact absurd h (not_lt.mpr (hall q hq))

/-- C10: for a positive tolerance, the difference of a cloud against itself is empty. -/
theorem pointsDifference_self (ε : Rat) (hε : 0 < ε) (a : List PointXYZ) :
    pointsDifference ε a a = [] := by
  unfold pointsDifference
  rw [List.filter_eq_nil_iff]
  intro p hp
  have hc : contains ε a p = true := by
    unfold contains
    rw [List.any_eq_true]
    refine ⟨p, hp, decide_eq_true ⟨hε, ?_⟩⟩
    rw [distSq_self]
    exact mul_pos hε hε
  simp [hc]

/-- Witness for C10: a two-point cloud and the tolerance 1/1000. -/
theorem pointsDifference_self_witness :
    (0 : Rat) < 1 / 1000 ∧
    pointsDifference (1 / 1000) [⟨0, 0, 0⟩, ⟨1, 2, 3⟩] [⟨0, 0, 0⟩, ⟨1, 2, 3⟩] = [] :=
  ⟨by norm_num, pointsDifference_self (1 / 1000) (by norm_num) [⟨0, 0, 0⟩, ⟨1, 2, 3⟩]⟩

/-! ## Coverage aggregation -/

/-- With a positive tolerance every member of a cloud is contained in it. -/
theorem contains_of_mem (ε : Rat) (hε : 0 < ε) (c : List PointXYZ) (p : PointXYZ)
    (hp : p ∈ c) : contains ε c p = true := by
  unfold contains
  rw [List.any_eq_true]
  refine ⟨p, hp, decide_eq_true ⟨hε, ?_⟩⟩
  rw [distSq_self]
  exact mul_pos hε hε

/-- Folding a sublist of the model into a covered set keeps every point at most as
often in the covered set as in the model. -/
theorem count_fold_le (ε : Rat) (hε : 0 < ε) (model covered subset : List PointXYZ)
    (hcov : ∀ p, covered.count p ≤ model.count p) (hsub : subset.Sublist model)
    (p : PointXYZ) :
    (covered ++ pointsDifference ε subset covered).count p ≤ model.count p := by
  rw [List.count_append]
  unfold pointsDifference
  by_cases hp : p ∈ covered
  · have hc := contains_of_mem ε hε covered p hp
    have hz : (subset.filter fun q => !contains ε covered q).count p = 0 := by
      apply List.count_eq_zero_of_not_mem
      intro hmem
      have := (List.mem_filter.mp hmem).2
      simp [hc] at this
    rw [hz]
    exact hcov p
  · rw [List.count_eq_zero_of_not_mem hp, Nat.zero_add]
    exact le_trans ((List.filter_sublist subset).count_le p) (hsub.count_le p)

/-- A list that holds every point at most as often as the model is at most as long. -/
theorem length_le_of_count_le (model covered : List PointXYZ)
    (h : ∀ p, covered.count p ≤ model.count p) : covered.length ≤ model.length :=
  (List.subperm_ext_iff.mpr fun p _ => h p).length_le

/-- The ratio lies in `[0,1]` when the covered set is no longer than the model. -/
theorem coverageRatio_bounds (model covered : List PointXYZ)
    (h : covered.length ≤ model.length) :
    0 ≤ coverageRatio model covered ∧ coverageRatio model covered ≤ 1 := by
  unfold coverageRatio
  by_cases hm : model.length = 0
  · simp [hm]
  · rw [if_neg hm]
    have hpos : (0 : Rat) < (model.length : Rat) := by
      exact_mod_cast Nat.pos_of_ne_zero hm
    have hle : (covered.length : Rat) ≤ (model.length : Rat) := by exact_mod_cast h
    constructor
    · exact div_nonneg (by exact_mod_cast Nat.zero_le _) (le_of_lt hpos)
    · rw [div_le_one hpos]
      exact hle

/-- The ratio does not decrease when the covered set grows. -/
theorem coverageRatio_mono (model covered extra : List PointXYZ) :
    coverageRatio model covered ≤ coverageRatio model (covered ++ extra) := by
  unfold coverageRatio
  by_cases hm : model.length = 0
  · simp [hm]
  · rw [if_neg hm, if_neg hm]
    have hpos : (0 : Rat) < (model.length : Rat) := by
      exact_mod_cast Nat.pos_of_ne_zero hm
    apply div_le_div_of_nonneg_right _ (le_of_lt hpos)
    rw [List.length_append]
    push_cast
    have : (0 : Rat) ≤ (extra.length : Rat) := by exact_mod_cast Nat.zero_le _
    linarith

/-- Folding sublists of the model keeps the covered set within the model's counts and
the stored ratio equal to the ratio of the covered set. -/
theorem foldl_invariant (ε : Rat) (hε : 0 < ε) (model : List PointXYZ)
    (subsets : List (List PointXYZ)) (hsub : ∀ T ∈ subsets, T.Sublist model)
    (s : CoverageState) (hcount : ∀ p, s.covered.count p ≤ model.count p)
    (hratio : s.ratio = coverageRatio model s.covered) :
    (∀ p, (subsets.foldl (foldCoverage ε model) s).covered.count p ≤ model.count p) ∧
      (subsets.foldl (foldCoverage ε model) s).ratio =
        coverageRatio model (subsets.foldl (foldCoverage ε model) s).covered := by
  induction subsets generalizing s with
  | nil => exact ⟨hcount, hratio⟩
  | cons T rest ih =>
    rw [List.foldl_cons]
    apply ih
    · intro U hU
      exact hsub U (List.mem_cons_of_mem _ hU)
    · intro p
      exact count_fold_le ε hε model s.covered T hcount (hsub T (List.mem_cons_self _ _)) p
    · rfl

/-- The state reached from `Empty` by folding sublists of the model. -/
theorem foldAll_invariant (ε : Rat) (hε : 0 < ε) (model : List PointXYZ)
    (subsets : List (List PointXYZ)) (hsub : ∀ T ∈ subsets, T.Sublist model) :
    (∀ p, (foldAll ε model subsets).covered.count p ≤ model.count p) ∧
      (foldAll ε model subsets).ratio =
        coverageRatio model (foldAll ε model subsets).covered := by
  unfold foldAll
  apply foldl_invariant ε hε model subsets hsub
  · intro p
    exact Nat.zero_le _
  · unfold CoverageState.initial coverageRatio
    simp

/-- C11: for every model, every positive tolerance and every sequence of visible subsets
of the model folded into the coverage state starting from `Empty`: the state after
the sequence extended by one more subset is the fold of that subset into the state
before, its ratio lies in `[0,1]`, and it is at least the ratio before that fold. -/
theorem coverage_ratio_bounded_monotone (ε : Rat) (hε : 0 < ε) (model : List PointXYZ)
    (earlier : List (List PointXYZ)) (subset : List PointXYZ)
    (hearlier : ∀ T ∈ earlier, T.Sublist model) (hsubset : subset.Sublist model) :
    foldAll ε model (earlier ++ [subset]) =
      foldCoverage ε model (foldAll ε model earlier) subset ∧
    0 ≤ (foldAll ε model (earlier ++ [subset])).ratio ∧
    (foldAll ε model (earlier ++ [subset])).ratio ≤ 1 ∧
    (foldAll ε model earlier).ratio ≤ (foldAll ε model (earlier ++ [subset])).ratio := by
  have hstep : foldAll ε model (earlier ++ [subset]) =
      foldCoverage ε model (foldAll ε model earlier) subset := by
    unfold foldAll
    rw [List.foldl_append]
    rfl
  obtain ⟨hcount, hratio⟩ := foldAll_invariant ε hε model earlier hearlier
  have hcount' := count_fold_le ε hε model (foldAll ε model earlier).covered subset hcount
    hsubset
  have hb := coverageRatio_bounds model _ (length_le_of_count_le model _ hcount')
  refine ⟨hstep, ?_, ?_, ?_⟩
  · rw [hstep]; exact hb.1
  · rw [hstep]; exact hb.2
  · rw [hstep, hratio]
    exact coverageRatio_mono model _ _

/-- Witness for C11: scenario B of the spec, a model of four points, pose 1 sees
{p1, p2}, pose 2 sees {p2, p3}; the ratio goes from 1/2 to 3/4. -/
theorem coverage_ratio_bounded_monotone_witness :
    (foldAll (1 / 1000) [⟨0, 0, 0⟩, ⟨1, 0, 0⟩, ⟨2, 0, 0⟩, ⟨3, 0, 0⟩]
        [[⟨0, 0, 0⟩, ⟨1, 0, 0⟩]]).ratio ≤
      (foldAll (1 / 1000) [⟨0, 0, 0⟩, ⟨1, 0, 0⟩, ⟨2, 0, 0⟩, ⟨3, 0, 0⟩]
        ([[⟨0, 0, 0⟩, ⟨1, 0, 0⟩]] ++ [[⟨1, 0, 0⟩, ⟨2, 0, 0⟩]])).ratio ∧
    (foldAll (1 / 1000) [⟨0, 0, 0⟩, ⟨1, 0, 0⟩, ⟨2, 0, 0⟩, ⟨3, 0, 0⟩]
        ([[⟨0, 0, 0⟩, ⟨1, 0, 0⟩]] ++ [[⟨1, 0, 0⟩, ⟨2, 0, 0⟩]])).ratio ≤ 1 ∧
    (foldAll (1 / 1000) [⟨0, 0, 0⟩, ⟨1, 0, 0⟩, ⟨2, 0, 0⟩, ⟨3, 0, 0⟩]
        [[⟨0, 0, 0⟩, ⟨1, 0, 0⟩]]).ratio = 1 / 2 ∧
    (foldAll (1 / 1000) [⟨0, 0, 0⟩, ⟨1, 0, 0⟩, ⟨2, 0, 0⟩, ⟨3, 0, 0⟩]
        ([[⟨0, 0, 0⟩, ⟨1, 0, 0⟩]] ++ [[⟨1, 0, 0⟩, ⟨2, 0, 0⟩]])).ratio = 3 / 4 := by
  have h := coverage_ratio_bounded_monotone (1 / 1000) (by norm_num)
    [⟨0, 0, 0⟩, ⟨1, 0, 0⟩, ⟨2, 0, 0⟩, ⟨3, 0, 0⟩] [[⟨0, 0, 0⟩, ⟨1, 0, 0⟩]]
    [⟨1, 0, 0⟩, ⟨2, 0, 0⟩] (by decide) (by decide)
  refine ⟨h.2.2.2, h.2.2.1, ?_, ?_⟩
  · norm_num [foldAll, foldCoverage, CoverageState.initial, pointsDifference, contains,
      distSq, coverageRatio, List.filter]
  · norm_num [foldAll, foldCoverage, CoverageState.initial, pointsDifference, contains,
      distSq, coverageRatio, List.filter]

end OcclusionCullingGPU
